import Mathlib

/-!
Shallow embedding of the `mcan` CAN/CAN-FD driver core, checked against its
natural-language specification.

The embedding follows the Rust sources under `src/mcan/src/`:

* `message/mod.rs`, `message/tx.rs` — message slot encoding/decoding
  (`RawMessage`, `MessageBuilder::build`, `len_to_dlc`, `dlc_to_len`);
* `interrupt.rs` — the interrupt ownership registry
  (`OwnedInterruptSet::split`/`join`, `InterruptConfiguration::enable`/`disable`);
* `rx_dedicated_buffers.rs` — dedicated RX buffers (`receive`, `receive_any`,
  `has_new_data`, `mark_buffer_read`);
* `tx_buffers.rs` — the transmit accessor (`transmit_dedicated`, `transmit`);
* `messageram.rs` and `bus.rs` — the addressability check, construction, and
  `apply_configuration`/`finalize`;
* `config.rs` — bit-timing validation and prescaler computation.

Machine integers are modelled as `Nat` with explicit `% 2^w` (or explicit
shift-amount masking) exactly where the Rust code can overflow or truncate.
Rust `Result<T, E>` with a single error value is modelled as `Option T`
(`none` = the error); richer error enums get dedicated inductive types.
The file is organised as: all definitions first, then all theorems.
-/

namespace Mcan

/-- Bitwise complement of a 32-bit word (`!x` on a Rust `u32`). -/
def not32 (x : Nat) : Nat := x ^^^ 0xFFFFFFFF

instance {e a : Type} [DecidableEq e] [DecidableEq a] :
    DecidableEq (Except e a) := fun x y => by
  cases x with
  | ok v =>
    cases y with
    | ok w =>
      exact if h : v = w then isTrue (by rw [h]) else
        isFalse (by intro hc; injection hc; contradiction)
    | error f => exact isFalse (by intro hc; cases hc)
  | error g =>
    cases y with
    | ok w => exact isFalse (by intro hc; cases hc)
    | error f =>
      exact if h : g = f then isTrue (by rw [h]) else
        isFalse (by intro hc; injection hc; contradiction)

namespace Message

/-! ## `message/mod.rs` and `message/tx.rs` — message slots -/

/-- CAN identifier: 11-bit standard or 29-bit extended, mirroring
`embedded_can::Id` as consumed through the narrow external interface.
Well-formedness (`v ≤ 0x7FF` resp. `v ≤ 0x1FFFFFFF`, guaranteed by the
external constructors) appears as hypotheses on theorems. -/
inductive CanId where
  | std (v : Nat)
  | ext (v : Nat)
deriving DecidableEq

/-- The plain numeric value carried by an identifier (11-bit value of a
standard ID, 29-bit value of an extended ID). -/
def CanId.numeric : CanId → Nat
  | .std v => v
  | .ext v => v

/-- Whether the identifier is extended. -/
def CanId.isExt : CanId → Bool
  | .std _ => false
  | .ext _ => true

/-- Well-formedness of an identifier: the raw value fits in 11 resp. 29
bits, as enforced by the `embedded_can` constructors. -/
def CanId.wf : CanId → Prop
  | .std v => v ≤ 0x7FF
  | .ext v => v ≤ 0x1FFFFFFF

instance : DecidablePred CanId.wf := fun i => by
  cases i <;> simp only [CanId.wf] <;> infer_instance

/-- Ordering key of a CAN identifier as used by `receive_any`'s
`min_by_key(|(_, m)| m.id())`. The `Ord` instance comes from the external
`embedded-can` crate (v0.4), which compares the triple
(11-bit standard part, IDE bit, 18-bit extension part) lexicographically —
the CAN bus arbitration priority order. The triple is positionally encoded
into one `Nat` (the extension part occupies the low 18 bits), which is
order-isomorphic to the lexicographic comparison. -/
def CanId.arbitration_key : CanId → Nat
  | .std v => v * 2 ^ 19
  | .ext v => (v >>> 18) * 2 ^ 19 + 2 ^ 18 + (v &&& (2 ^ 18 - 1))

/-- Converts data length code to a length in bytes (`dlc_to_len` in
`message/mod.rs`). The scrutinee is a `u8`; the trailing match arms
`15.. => 64` and `9.. => 8` are the catch-all branches. -/
def dlc_to_len (dlc : Nat) (fd_format : Bool) : Nat :=
  if fd_format then
    if dlc ≤ 8 then dlc
    else if dlc = 9 then 12
    else if dlc = 10 then 16
    else if dlc = 11 then 20
    else if dlc = 12 then 24
    else if dlc = 13 then 32
    else if dlc = 14 then 48
    else 64
  else
    if dlc ≤ 8 then dlc else 8

/-- Finds the smallest data length code that encodes at least `len` bytes
(`len_to_dlc` in `message/mod.rs`). `none` models `Err(TooMuchData)`.
The source matches on `len as u8`, so the argument is truncated modulo 256
before the range dispatch — the truncation is part of the embedding because
it is observable behaviour of the source. -/
def len_to_dlc (len : Nat) (fd_format : Bool) : Option Nat :=
  let l := len % 256
  if fd_format then
    if l ≤ 8 then some l
    else if l ≤ 12 then some 9
    else if l ≤ 16 then some 10
    else if l ≤ 20 then some 11
    else if l ≤ 24 then some 12
    else if l ≤ 32 then some 13
    else if l ≤ 48 then some 14
    else if l ≤ 64 then some 15
    else none
  else
    if l ≤ 8 then some l else none

/-- RX or TX message in the peripheral's representation
(`RawMessage<N>` in `message/mod.rs`): two 32-bit header words plus a
payload array of the slot width `N = data.length`. -/
structure RawMessage where
  header0 : Nat
  header1 : Nat
  data : List Nat
deriving DecidableEq

/-- XTD flag: the frame uses an extended (29-bit) ID
(`Raw::is_extended`, bit 30 of the first header word). -/
def RawMessage.is_extended (m : RawMessage) : Bool :=
  decide (m.header0 &&& (1 <<< 30) ≠ 0)

/-- RTR flag: Remote Transmission Request
(`Raw::is_remote_frame`, bit 29 of the first header word). -/
def RawMessage.is_remote_frame (m : RawMessage) : Bool :=
  decide (m.header0 &&& (1 <<< 29) ≠ 0)

/-- FDF flag: the frame uses the CAN FD format
(`Raw::fd_format`, bit 21 of the second header word). -/
def RawMessage.fd_format (m : RawMessage) : Bool :=
  decide (m.header1 &&& (1 <<< 21) ≠ 0)

/-- ESI flag (`Raw::is_transmitter_error_passive`, bit 31 of the first
header word). -/
def RawMessage.is_transmitter_error_passive (m : RawMessage) : Bool :=
  decide (m.header0 &&& (1 <<< 31) ≠ 0)

/-- BRS flag (`Raw::bit_rate_switching`, bit 20 of the second header word). -/
def RawMessage.bit_rate_switching (m : RawMessage) : Bool :=
  decide (m.header1 &&& (1 <<< 20) ≠ 0)

/-- Data length code (`Raw::dlc`): bits 16–19 of the second header word.
The source computes `((header[1] >> 16) & 0xf) as u8`. -/
def RawMessage.dlc (m : RawMessage) : Nat :=
  (m.header1 >>> 16) &&& 0xf

/-- Decoded CAN identifier (`Raw::id`). For a standard ID the source computes
`(header[0] >> 18) as u16 & StandardId::MAX.as_raw()`; the `as u16` cast is
the `% 65536`. For an extended ID it masks with `ExtendedId::MAX.as_raw()`. -/
def RawMessage.id (m : RawMessage) : CanId :=
  if m.is_extended then
    .ext (m.header0 &&& 0x1FFFFFFF)
  else
    .std ((m.header0 >>> 18) % 65536 &&& 0x7FF)

/-- Data length in bytes (`Raw::decoded_dlc`). -/
def RawMessage.decoded_dlc (m : RawMessage) : Nat :=
  dlc_to_len m.dlc m.fd_format

/-- Models the Rust slice operation `data.get(..k)`: `some` prefix when the
bound is within the array, `none` otherwise. -/
def slice_to (l : List Nat) (k : Nat) : Option (List Nat) :=
  if k ≤ l.length then some (l.take k) else none

/-- Data field accessor (`Raw::data`): an empty slice for remote frames,
otherwise `data.get(..min(decoded_dlc, data.len())).unwrap_or(&[])`. -/
def RawMessage.data_field (m : RawMessage) : List Nat :=
  if ¬m.is_remote_frame then
    (slice_to m.data (min m.decoded_dlc m.data.length)).getD []
  else
    []

/-- Selects the type of a Classic CAN frame (`tx::ClassicFrameType`). -/
inductive ClassicFrameType where
  | data (payload : List Nat)
  | remote (desired_len : Nat)

/-- Frame type selection (`tx::FrameType`). -/
inductive FrameType where
  | classic (c : ClassicFrameType)
  | flexibleDatarate (payload : List Nat) (bit_rate_switching : Bool)
      (force_error_state_indicator : Bool)

/-- Frame description prior to conversion (`tx::MessageBuilder`).
`store_tx_event` carries the `u8` message marker. -/
structure MessageBuilder where
  id : CanId
  frame_type : FrameType
  store_tx_event : Option Nat

/-- The payload copy in `MessageBuilder::build`: fails (`Err(TooMuchData)`)
when the payload exceeds the slot width `N`, otherwise yields the zero-filled
slot with the payload copied into its prefix. -/
def copy_payload (N : Nat) (d : List Nat) : Option (List Nat) :=
  if d.length > N then none
  else some (d ++ List.replicate (N - d.length) 0)

/-- First header word assembled by `MessageBuilder::build`:
`id_field | (rtr as u32) << 29 | (xtd as u32) << 30 | (esi as u32) << 31`. -/
def pack_t0 (id_field : Nat) (rtr xtd esi : Bool) : Nat :=
  id_field ||| (rtr.toNat <<< 29) ||| (xtd.toNat <<< 30) ||| (esi.toNat <<< 31)

/-- Second header word assembled by `MessageBuilder::build`:
`((dlc & 0xf) as u32) << 16 | (brs as u32) << 20 | (fdf as u32) << 21
 | (efc as u32) << 23 | (mm as u32) << 24`. -/
def pack_t1 (dlc : Nat) (brs fdf efc : Bool) (mm : Nat) : Nat :=
  ((dlc &&& 0xf) <<< 16) ||| (brs.toNat <<< 20) ||| (fdf.toNat <<< 21) |||
    (efc.toNat <<< 23) ||| (mm <<< 24)

/-- Creates the message in the format required by the peripheral
(`MessageBuilder::build::<N>` in `message/tx.rs`). `none` models
`Err(TooMuchData)`. -/
def build (N : Nat) (b : MessageBuilder) : Option RawMessage :=
  let id_field : Nat :=
    match b.id with
    | .std v => v <<< 18
    | .ext v => v
  let xtd : Bool :=
    match b.id with
    | .std _ => false
    | .ext _ => true
  let step : Option (Bool × Bool × Bool × Bool × Nat × List Nat) :=
    match b.frame_type with
    | .classic (.data payload) =>
      match copy_payload N payload with
      | none => none
      | some data => some (false, false, false, false, payload.length, data)
    | .classic (.remote desired_len) =>
      some (false, false, false, true, desired_len, List.replicate N 0)
    | .flexibleDatarate payload brs esi =>
      match copy_payload N payload with
      | none => none
      | some data => some (true, brs, esi, false, payload.length, data)
  match step with
  | none => none
  | some (fdf, brs, esi, rtr, len, data) =>
    match len_to_dlc len fdf with
    | none => none
    | some dlc =>
      let efc : Bool := b.store_tx_event.isSome
      let mm : Nat := b.store_tx_event.getD 0
      some ⟨pack_t0 id_field rtr xtd esi, pack_t1 dlc brs fdf efc mm, data⟩

end Message

namespace Interrupt

/-! ## `interrupt.rs` — the interrupt ownership registry

The registry (`InterruptConfiguration`) keeps the mask of flags it still
owns (`disabled`); every successful `enable` moves a sub-mask out into an
`OwnedInterruptSet` handle, and `disable` moves a handle's mask back.
`OwnedInterruptSet::split` computes `missing = !owned & subset` and fails
with `MaskError(missing)` when `missing != 0`. The state below tracks the
registry mask and the masks of all outstanding handles; ILS/ILE/IE register
toggles carry no ownership information and are not part of the state. -/

/-- Registry mask plus the masks of all outstanding owned handles. -/
structure RegistryState where
  registry : Nat
  handles : List Nat
deriving DecidableEq

/-- Initial state from `InterruptConfiguration::new`: the registry owns all
30 interrupt flags (`InterruptSet(0x3fff_ffff)`), no handles are out. -/
def registry_init : RegistryState := ⟨0x3FFFFFFF, []⟩

/-- The unavailable part of an `enable`/`split` request:
`!self.0.0 & subset.0` in `OwnedInterruptSet::split`. -/
def split_missing (owned subset : Nat) : Nat := not32 owned &&& subset

/-- Result of `InterruptConfiguration::enable`. -/
inductive EnableResult where
  | granted
  | maskError (missing : Nat)
deriving DecidableEq

/-- `InterruptConfiguration::enable`: splits `req` out of the registry's
`disabled` set; on success the new handle owns exactly `req`. The ILS/IE
writes performed on success do not affect ownership and are omitted. -/
def enable (st : RegistryState) (req : Nat) : EnableResult × RegistryState :=
  let missing := split_missing st.registry req
  if missing ≠ 0 then (.maskError missing, st)
  else (.granted, ⟨st.registry &&& not32 req, req :: st.handles⟩)

/-- `InterruptConfiguration::disable`: joins a previously granted handle
(identified by its mask, which the caller still owns) back into the
registry (`OwnedInterruptSet::join` performs `self.0.0 |= other.0.0`). -/
def disable (st : RegistryState) (h : Nat) : RegistryState :=
  if h ∈ st.handles then ⟨st.registry ||| h, st.handles.erase h⟩ else st

/-- One registry operation: an `enable` request or a `disable` of an
outstanding handle. -/
inductive RegistryOp where
  | enable (req : Nat)
  | disable (h : Nat)

/-- Effect of one operation on the registry state. -/
def registry_step (st : RegistryState) (op : RegistryOp) : RegistryState :=
  match op with
  | .enable req => (enable st req).2
  | .disable h => disable st h

/-- State after a sequence of operations starting from the initial state. -/
def registry_run (ops : List RegistryOp) : RegistryState :=
  ops.foldl registry_step registry_init

/-- Well-formedness of one operation: an `enable` request is a 32-bit set
(`InterruptSet` wraps a `u32`). -/
def RegistryOp.wf : RegistryOp → Prop
  | .enable req => req < 2 ^ 32
  | .disable _ => True

instance : DecidablePred RegistryOp.wf := fun op => by
  cases op <;> simp only [RegistryOp.wf] <;> infer_instance

/-- Well-formedness of an operation sequence. -/
def OpsWf (ops : List RegistryOp) : Prop :=
  ∀ op ∈ ops, op.wf

/-- The ownership invariant: the registry mask and all outstanding handle
masks are pairwise disjoint, and each is a 32-bit set. -/
def MasksDisjoint (st : RegistryState) : Prop :=
  (st.registry :: st.handles).Pairwise (fun a b => a &&& b = 0) ∧
    ∀ m ∈ st.registry :: st.handles, m < 2 ^ 32

end Interrupt

namespace RxDedicated

open Message

/-! ## `rx_dedicated_buffers.rs` — dedicated RX buffers

State: the NDAT1/NDAT2 new-data registers plus the dedicated-buffer slots
of Message RAM. NDAT registers are write-one-to-clear: writing a value `v`
clears the flags in `v` and leaves the rest unchanged. -/

/-- NDAT1/NDAT2 registers and the dedicated-buffer slice of Message RAM. -/
structure RxState where
  ndat1 : Nat
  ndat2 : Nat
  mem : List RawMessage
deriving DecidableEq

/-- `RxDedicatedBuffer::has_new_data`: tests bit `index` of NDAT1 for
indices 0–31, bit `index - 32` of NDAT2 for indices 32–63, and yields
`false` beyond. -/
def has_new_data (st : RxState) (index : Nat) : Bool :=
  if index < 32 then decide (st.ndat1 &&& (1 <<< index) ≠ 0)
  else if index < 64 then decide (st.ndat2 &&& (1 <<< (index - 32)) ≠ 0)
  else false

/-- `RxDedicatedBuffer::has_new_data_checked`: `none` models
`Err(OutOfBounds)` for indices ≥ 64. -/
def has_new_data_checked (st : RxState) (index : Nat) : Option Bool :=
  if index < 64 then some (has_new_data st index) else none

/-- The value `mark_buffer_read` writes, under release-mode semantics.
The source writes `1 << index` to NDAT1 when `index < 32` and — verbatim —
`1 << index` (not `1 << (index - 32)`) to NDAT2 when `32 <= index < 64`.
On a `u32` a shift amount of 32–63 is an overflowing shift: with overflow
checks enabled it panics; in release builds the shift amount is masked to
`index % 32`. The release value is modelled here; the overflow itself is
exposed by `mark_buffer_read_shift_overflow`. `none` (index ≥ 64): no
register is written. The `Bool` is `true` for NDAT2. -/
def mark_buffer_read_write (index : Nat) : Option (Bool × Nat) :=
  if index < 32 then some (false, (1 <<< index) % 2 ^ 32)
  else if index < 64 then some (true, (1 <<< (index % 32)) % 2 ^ 32)
  else none

/-- Whether the `1 << index` expression in `mark_buffer_read` overflows its
`u32` shift (panics in a build with overflow checks): the NDAT1 branch
shifts by `index < 32`, the NDAT2 branch shifts by `index` itself. -/
def mark_buffer_read_shift_overflow (index : Nat) : Bool :=
  if index < 32 then false
  else if index < 64 then decide (32 ≤ index)
  else false

/-- State effect of `mark_buffer_read` (release semantics): the NDAT
registers are write-one-to-clear. -/
def mark_buffer_read (st : RxState) (index : Nat) : RxState :=
  match mark_buffer_read_write index with
  | some (false, v) => { st with ndat1 := st.ndat1 &&& not32 v }
  | some (true, v) => { st with ndat2 := st.ndat2 &&& not32 v }
  | none => st

/-- Result type modelling `nb::Result<T, OutOfBounds>`. -/
inductive NbRes (α : Type) where
  | ok (val : α)
  | wouldBlock
  | outOfBounds
deriving DecidableEq

/-- `RxDedicatedBuffer::peek`: out-of-bounds check, new-data check, then
the slot read. -/
def peek (st : RxState) (index : Nat) : NbRes RawMessage :=
  match has_new_data_checked st index with
  | none => .outOfBounds
  | some b =>
    if b then
      match st.mem.get? index with
      | none => .outOfBounds
      | some m => .ok m
    else .wouldBlock

/-- `RxDedicatedBuffer::receive`: peek, then mark the buffer read. -/
def receive (st : RxState) (index : Nat) : NbRes RawMessage × RxState :=
  match peek st index with
  | .ok m => (.ok m, mark_buffer_read st index)
  | r => (r, st)

/-- `min_by_key` over a list, by a `Nat` key, returning the first of equally
minimal elements (the semantics of Rust's `Iterator::min_by_key`). -/
def min_by_key_first {α : Type} (key : α → Nat) : List α → Option α
  | [] => none
  | x :: xs => some (xs.foldl (fun a b => if key b < key a then b else a) x)

/-- The `(index, message)` pairs with new data, in index order — the
`memory.iter().enumerate().filter_map(...)` stage of `receive_any`. -/
def pending_list (st : RxState) : List (Nat × RawMessage) :=
  (List.range st.mem.length).filterMap fun i =>
    match st.mem.get? i with
    | some m => if has_new_data st i then some (i, m) else none
    | none => none

/-- `RxDedicatedBuffer::receive_any`: among all buffers with new data,
selects the message minimal by `m.id()` under the external `embedded-can`
ordering, marks its buffer read, and returns it; `none` models
`Err(WouldBlock)`. -/
def receive_any (st : RxState) : Option (RawMessage × RxState) :=
  match min_by_key_first (fun p => p.2.id.arbitration_key) (pending_list st) with
  | none => none
  | some (i, m) => some (m, mark_buffer_read st i)

end RxDedicated

namespace TxBuffers

open RxDedicated (NbRes)

/-! ## `tx_buffers.rs` — the transmit accessor

State: the TXBAR (add requests) and TXBRP (pending) registers plus the TX
slice of Message RAM. TXBAR is write-one-to-set; message payloads are
abstracted to `Nat` tokens, since only slot writes matter here. -/

/-- TXBAR/TXBRP registers and the TX-buffer slice of Message RAM. -/
structure TxState where
  txbar : Nat
  txbrp : Nat
  mem : List Nat
deriving DecidableEq

/-- `Tx::is_buffer_in_use`: `(add_requests | pending) & (1 << index) != 0`. -/
def is_buffer_in_use (st : TxState) (index : Nat) : Bool :=
  decide ((st.txbar ||| st.txbrp) &&& (1 <<< index) ≠ 0)

/-- `Tx::add_request`: writes `1 << index` to TXBAR (write-one-to-set).
All reachable calls have `index < mem.length ≤ 32`, so the `u32` shift does
not overflow here. -/
def add_request (st : TxState) (index : Nat) : TxState :=
  { st with txbar := st.txbar ||| ((1 <<< index) % 2 ^ 32) }

/-- `Tx::transmit`: would-block if the buffer is in use, bounds-check the
slot, then write the message and pulse the add request. -/
def transmit (st : TxState) (index : Nat) (msg : Nat) :
    NbRes Unit × TxState :=
  if is_buffer_in_use st index then (.wouldBlock, st)
  else
    match st.mem.get? index with
    | none => (.outOfBounds, st)
    | some _ => (.ok (), add_request { st with mem := st.mem.set index msg } index)

/-- `Tx::transmit_dedicated`: the source guards with
`index > C::DedicatedTxBuffers::USIZE` — strictly greater — before
delegating to `transmit`. -/
def transmit_dedicated (dedicated : Nat) (st : TxState) (index : Nat)
    (msg : Nat) : NbRes Unit × TxState :=
  if index > dedicated then (.outOfBounds, st)
  else transmit st index msg

end TxBuffers

namespace Bus

/-! ## `messageram.rs` and `bus.rs` — addressability and construction -/

/-- Start of addressable RAM (`SYSTEM_RAM` in `messageram.rs`). -/
def SYSTEM_RAM : Nat := 0x20000000

/-- `SharedMemory::is_addressable`: the region `[start, start + size)` must
lie in the 64 KiB window above the eligible base. The body in
`messageram.rs` is `SYSTEM_RAM <= start && end_exclusive - SYSTEM_RAM <=
1 << 16` with short-circuit `&&` (so the `usize` subtraction cannot
underflow); `CanConfigurable::new` in `bus.rs` supplies the base as
`dependencies.eligible_message_ram_start()`, generalised here into the
`base` argument. -/
def is_addressable (base start size : Nat) : Bool :=
  decide (base ≤ start) && decide (start + size - base ≤ 1 <<< 16)

/-- Hardware interactions performed by `CanConfigurable::new`, in order. -/
inductive NewEvent where
  | enterConfigurationMode
  | applyRamConfig
deriving DecidableEq

/-- Result of `CanConfigurable::new`. -/
inductive NewResult where
  | ok
  | memoryNotAddressable
deriving DecidableEq

/-- Modelled from the spec: `reg::Can::configuration_mode` (the hand-written
register wrapper is not under `src/`) performs CCCR writes with busy-polls
to enter configuration mode ("every mode transition (entering configuration
mode, asserting configuration-change-enable, ...) busy-polls a status
bit"); it is abstracted to the single trace event
`NewEvent.enterConfigurationMode`.

`CanConfigurable::new` (in `bus.rs`): constructs the register view, calls
`reg.configuration_mode()`, then checks addressability and returns
`Err(MemoryNotAddressableError)` on failure; on success it zero-initialises
the memory and calls `apply_ram_config` (the Message-RAM layout register
writes, abstracted to one trace event). Returned alongside the result is
the ordered trace of hardware interactions. -/
def can_new (base start size : Nat) : NewResult × List NewEvent :=
  let trace := [NewEvent.enterConfigurationMode]
  if ¬is_addressable base start size then (.memoryNotAddressable, trace)
  else (.ok, trace ++ [NewEvent.applyRamConfig])

end Bus

namespace Config

/-! ## `config.rs` and `bus.rs` — bit timing and `apply_configuration` -/

/-- Bit-timing parameters (`config::BitTiming`); `bitrate` in Hz. -/
structure BitTiming where
  sjw : Nat
  phase_seg_1 : Nat
  phase_seg_2 : Nat
  bitrate : Nat
deriving DecidableEq

/-- Number of time quanta per bit time (`BitTiming::time_quanta_per_bit`):
`1 + phase_seg_1 + phase_seg_2`. -/
def time_quanta_per_bit (bt : BitTiming) : Nat :=
  1 + bt.phase_seg_1 + bt.phase_seg_2

/-- Valid ranges for a `BitTiming` (`config::BitTimingRanges`), each range
inclusive. -/
structure BitTimingRanges where
  sjw_min : Nat
  sjw_max : Nat
  ps1_min : Nat
  ps1_max : Nat
  ps2_min : Nat
  ps2_max : Nat
  tq_min : Nat
  tq_max : Nat
  prescaler_min : Nat
  prescaler_max : Nat

/-- `NOMINAL_BIT_TIMING_RANGES` from `config.rs`. -/
def NOMINAL_BIT_TIMING_RANGES : BitTimingRanges :=
  ⟨1, 128, 2, 256, 2, 128, 5, 385, 1, 512⟩

/-- `DATA_BIT_TIMING_RANGES` from `config.rs`. -/
def DATA_BIT_TIMING_RANGES : BitTimingRanges :=
  ⟨1, 16, 1, 32, 1, 16, 3, 49, 1, 32⟩

/-- Misconfigurations of `BitTiming` (`config::BitTimingError`); the range
payloads carried by the Rust variants are omitted, the variant identity is
kept. -/
inductive BitTimingError where
  | synchronizationJumpWidthOutOfRange
  | phaseSeg1OutOfRange
  | phaseSeg2OutOfRange
  | bitTimeOutOfRange
  | prescalerOutOfRange
  | noValidPrescaler
deriving DecidableEq

/-- `BitTiming::check`: validates the fields against the ranges, in source
order. `some e` models `Err(e)`, `none` models `Ok(())`. -/
def bt_check (bt : BitTiming) (valid : BitTimingRanges) :
    Option BitTimingError :=
  if ¬(valid.sjw_min ≤ bt.sjw ∧ bt.sjw ≤ valid.sjw_max) then
    some .synchronizationJumpWidthOutOfRange
  else if ¬(valid.ps1_min ≤ bt.phase_seg_1 ∧ bt.phase_seg_1 ≤ valid.ps1_max)
  then some .phaseSeg1OutOfRange
  else if ¬(valid.ps2_min ≤ bt.phase_seg_2 ∧ bt.phase_seg_2 ≤ valid.ps2_max)
  then some .phaseSeg2OutOfRange
  else if ¬(valid.tq_min ≤ time_quanta_per_bit bt ∧
      time_quanta_per_bit bt ≤ valid.tq_max) then
    some .bitTimeOutOfRange
  else none

/-- `BitTiming::prescaler`: check the ranges, then require the CAN clock to
be an exact multiple of `bitrate * time_quanta_per_bit`
(`checked_rem` returns `Some(0)` exactly when the divisor is nonzero and
divides), then range-check the resulting prescaler. -/
def bt_prescaler (bt : BitTiming) (f_can : Nat) (valid : BitTimingRanges) :
    Except BitTimingError Nat :=
  match bt_check bt valid with
  | some e => .error e
  | none =>
    let f_q := bt.bitrate * time_quanta_per_bit bt
    if f_q ≠ 0 ∧ f_can % f_q = 0 then
      let prescaler := f_can / f_q
      if ¬(valid.prescaler_min ≤ prescaler ∧
          prescaler ≤ valid.prescaler_max) then
        .error .prescalerOutOfRange
      else .ok prescaler
    else .error .noValidPrescaler

/-- CAN mode (`config::Mode`): classic, or FD with data-phase timing. -/
inductive CfgMode where
  | classic
  | fd (allow_bit_rate_switching : Bool) (data_phase_timing : BitTiming)
deriving DecidableEq

/-- Timestamp configuration (`config::Timestamp`); `select` is the raw
variant code of `TimeStampSelect`. -/
structure Timestamp where
  select : Nat
  prescaler : Nat
deriving DecidableEq

/-- RX FIFO configuration (`config::RxFifoConfig`); `overwrite_mode` is the
boolean the mode converts to (`Overwrite => true`, `Blocking => false`). -/
structure RxFifoConfig where
  overwrite_mode : Bool
  watermark : Nat
deriving DecidableEq

/-- TX configuration (`config::TxConfig`); `tx_queue_submode_priority` is
the boolean the submode converts to (`Priority => true`, `Fifo => false`). -/
structure TxConfig where
  tx_event_fifo_watermark : Nat
  tx_queue_submode_priority : Bool
deriving DecidableEq

/-- Bus configuration (`config::CanConfig`). -/
structure CanConfig where
  mode : CfgMode
  loopback : Bool
  nominal_timing : BitTiming
  timestamp : Timestamp
  rx_fifo_0 : RxFifoConfig
  rx_fifo_1 : RxFifoConfig
  tx : TxConfig
deriving DecidableEq

/-- Errors during configuration (`bus::ConfigurationError`). -/
inductive ConfigurationError where
  | bitTiming (e : BitTimingError)
  | invalidTimeStampPrescaler
deriving DecidableEq

/-- NBTP register fields as written by `apply_configuration`. -/
structure RegNbtp where
  nsjw : Nat
  ntseg1 : Nat
  ntseg2 : Nat
  nbrp : Nat
deriving DecidableEq

/-- TSCC register fields. -/
structure RegTscc where
  tss : Nat
  tcp : Nat
deriving DecidableEq

/-- The CCCR fields touched by `apply_configuration`. -/
structure RegCccr where
  fdoe : Bool
  brse : Bool
  test_enable : Bool
deriving DecidableEq

/-- DBTP register fields. -/
structure RegDbtp where
  dsjw : Nat
  dtseg1 : Nat
  dtseg2 : Nat
  dbrp : Nat
deriving DecidableEq

/-- GFC register: both `anfs` and `anfe` are written to `REJECT`. -/
structure RegGfc where
  anfs_reject : Bool
  anfe_reject : Bool
deriving DecidableEq

/-- TEST register (loopback bit). -/
structure RegTest where
  lbck : Bool
deriving DecidableEq

/-- RXF0C/RXF1C fields: the start address and size written by
`apply_ram_config`, plus the mode and watermark modified by
`apply_configuration`. -/
structure RegRxFifoCfg where
  fsa : Nat
  fs : Nat
  fom : Bool
  fwm : Nat
deriving DecidableEq

/-- TXBC fields. -/
structure RegTxbc where
  tfqs : Nat
  ndtb : Nat
  tbsa : Nat
  tfqm : Bool
deriving DecidableEq

/-- TXEFC fields. -/
structure RegTxefc where
  efsa : Nat
  efs : Nat
  efwm : Nat
deriving DecidableEq

/-- The peripheral configuration registers touched by
`apply_configuration`. -/
structure RegState where
  nbtp : RegNbtp
  tscc : RegTscc
  cccr : RegCccr
  dbtp : RegDbtp
  gfc : RegGfc
  test : RegTest
  rxf0c : RegRxFifoCfg
  rxf1c : RegRxFifoCfg
  txbc : RegTxbc
  txefc : RegTxefc
deriving DecidableEq

/-- The writes `apply_configuration` performs after the mode match: GFC,
loopback (CCCR.TEST and TEST.LBCK), RX FIFO 0/1 mode+watermark (values at
or above 64 clamp to 64), TXBC submode, and TXEFC watermark (values at or
above 32 clamp to 32). -/
def apply_config_tail (cfg : CanConfig) (st : RegState) : RegState :=
  let st := { st with gfc := ⟨true, true⟩ }
  let st := { st with cccr := { st.cccr with test_enable := cfg.loopback } }
  let st := { st with test := ⟨cfg.loopback⟩ }
  let st := { st with rxf0c :=
    { st.rxf0c with
      fom := cfg.rx_fifo_0.overwrite_mode
      fwm := if cfg.rx_fifo_0.watermark ≥ 64 then 64
             else cfg.rx_fifo_0.watermark } }
  let st := { st with rxf1c :=
    { st.rxf1c with
      fom := cfg.rx_fifo_1.overwrite_mode
      fwm := if cfg.rx_fifo_1.watermark ≥ 64 then 64
             else cfg.rx_fifo_1.watermark } }
  let st := { st with txbc :=
    { st.txbc with tfqm := cfg.tx.tx_queue_submode_priority } }
  { st with txefc :=
    { st.txefc with
      efwm := if cfg.tx.tx_event_fifo_watermark ≥ 32 then 32
              else cfg.tx.tx_event_fifo_watermark } }

/-- `CanConfigurable::apply_configuration` (in `bus.rs`), as a state
transformer on the configuration registers. The source order is: timestamp
prescaler check; nominal prescaler computation (may fail); NBTP write;
TSCC write; mode match — classic clears CCCR.FDOE, FD sets CCCR.FDOE/BRSE
and only then computes the data-phase prescaler (may fail) before writing
DBTP; then the common tail. -/
def apply_configuration (cfg : CanConfig) (f_can : Nat) (st : RegState) :
    Except ConfigurationError Unit × RegState :=
  if ¬(1 ≤ cfg.timestamp.prescaler ∧ cfg.timestamp.prescaler ≤ 16) then
    (.error .invalidTimeStampPrescaler, st)
  else
    match bt_prescaler cfg.nominal_timing f_can NOMINAL_BIT_TIMING_RANGES with
    | .error e => (.error (.bitTiming e), st)
    | .ok nominal_prescaler =>
      let st := { st with nbtp :=
        ⟨cfg.nominal_timing.sjw - 1, cfg.nominal_timing.phase_seg_1 - 1,
         cfg.nominal_timing.phase_seg_2 - 1, nominal_prescaler - 1⟩ }
      let st := { st with tscc :=
        ⟨cfg.timestamp.select, cfg.timestamp.prescaler - 1⟩ }
      match cfg.mode with
      | .classic =>
        let st := { st with cccr := { st.cccr with fdoe := false } }
        (.ok (), apply_config_tail cfg st)
      | .fd allow_brs data_phase_timing =>
        let st := { st with cccr :=
          { st.cccr with fdoe := true, brse := allow_brs } }
        match bt_prescaler data_phase_timing f_can DATA_BIT_TIMING_RANGES with
        | .error e => (.error (.bitTiming e), st)
        | .ok data_prescaler =>
          let st := { st with dbtp :=
            ⟨data_phase_timing.sjw - 1, data_phase_timing.phase_seg_1 - 1,
             data_phase_timing.phase_seg_2 - 1,
             (data_prescaler - 1) % 256⟩ }
          (.ok (), apply_config_tail cfg st)

/-- `CanConfigurable::finalize`: applies the configuration; on success (and
only then) calls `operational_mode()` (modelled from the spec: the register
wrapper clears CCCR.INIT and busy-polls; represented by the `Bool`). -/
def finalize (cfg : CanConfig) (f_can : Nat) (st : RegState) :
    Except ConfigurationError Unit × RegState × Bool :=
  match apply_configuration cfg f_can st with
  | (.ok _, st') => (.ok (), st', true)
  | (.error e, st') => (.error e, st', false)

end Config

end Mcan

namespace Mcan

/-! # Theorems

First a small toolkit about `Nat` bitwise operations, then the claims. -/

/-- A conjunction of bit masks is zero iff no bit is set in both operands. -/
theorem land_eq_zero_iff {x y : Nat} :
    x &&& y = 0 ↔ ∀ i, ¬(x.testBit i = true ∧ y.testBit i = true) := by
  constructor
  · intro h i ⟨hx, hy⟩
    have := congrArg (Nat.testBit · i) h
    simp [Nat.testBit_land, hx, hy, Nat.zero_testBit] at this
  · intro h
    apply Nat.eq_of_testBit_eq
    intro i
    simp only [Nat.testBit_land, Nat.zero_testBit]
    cases hx : x.testBit i with
    | false => simp
    | true =>
      cases hy : y.testBit i with
      | false => simp
      | true => exact absurd ⟨hx, hy⟩ (h i)

/-- Bit `i` of a boolean flag shifted to position `k`. -/
theorem testBit_bool_shl (b : Bool) (k i : Nat) :
    ((b.toNat) <<< k).testBit i = (decide (i = k) && b) := by
  cases b with
  | false =>
    simp [Nat.shiftLeft_eq, Nat.zero_testBit]
  | true =>
    have h : (true : Bool).toNat <<< k = 2 ^ k := by simp [Nat.shiftLeft_eq]
    rw [h, Nat.testBit_two_pow]
    simp [eq_comm]

/-- Testing a single-bit mask: `x &&& (1 <<< k) ≠ 0` is exactly
`x.testBit k`. The Rust sources test flags with expressions of the form
`value & (1 << k) != 0`. -/
theorem land_one_shl_ne_zero (x k : Nat) :
    decide (x &&& (1 <<< k) ≠ 0) = x.testBit k := by
  have h1 : (1 : Nat) <<< k = (true : Bool).toNat <<< k := by simp
  cases hx : x.testBit k with
  | true =>
    have : (x &&& (1 <<< k)).testBit k = true := by
      simp [Nat.testBit_land, hx, h1, testBit_bool_shl]
    simp only [ne_eq, decide_eq_true_eq]
    intro hz
    rw [hz] at this
    simp [Nat.zero_testBit] at this
  | false =>
    have : x &&& (1 <<< k) = 0 := by
      apply land_eq_zero_iff.mpr
      intro i ⟨hxi, hsi⟩
      rw [h1, testBit_bool_shl] at hsi
      have : i = k := by
        by_contra hne
        simp [hne] at hsi
      rw [this] at hxi
      exact absurd hxi (by simp [hx])
    simp [this]

namespace Message

/-! ## Header-packing lemmas for `message/mod.rs` decoding -/

/-- Bit decomposition of the first header word. -/
theorem testBit_pack_t0 (idf : Nat) (r x e : Bool) (i : Nat) :
    (pack_t0 idf r x e).testBit i =
      (idf.testBit i || (decide (i = 29) && r) || (decide (i = 30) && x) ||
        (decide (i = 31) && e)) := by
  simp only [pack_t0, Nat.testBit_lor, testBit_bool_shl]

/-- Bit decomposition of the second header word. -/
theorem testBit_pack_t1 (dlc : Nat) (brs fdf efc : Bool) (mm i : Nat) :
    (pack_t1 dlc brs fdf efc mm).testBit i =
      (((dlc &&& 0xf) <<< 16).testBit i || (decide (i = 20) && brs) ||
        (decide (i = 21) && fdf) || (decide (i = 23) && efc) ||
        (mm <<< 24).testBit i) := by
  simp only [pack_t1, Nat.testBit_lor, testBit_bool_shl]

/-- The XTD bit of a packed header is the `xtd` flag. -/
theorem pack_t0_xtd (idf : Nat) (h : idf < 2 ^ 29) (r x e : Bool) :
    (pack_t0 idf r x e).testBit 30 = x := by
  rw [testBit_pack_t0]
  have h30 : idf.testBit 30 = false :=
    Nat.testBit_eq_false_of_lt (lt_of_lt_of_le h (by norm_num))
  simp [h30]

/-- The RTR bit of a packed header is the `rtr` flag. -/
theorem pack_t0_rtr (idf : Nat) (h : idf < 2 ^ 29) (r x e : Bool) :
    (pack_t0 idf r x e).testBit 29 = r := by
  rw [testBit_pack_t0]
  have h29 : idf.testBit 29 = false := Nat.testBit_eq_false_of_lt h
  simp [h29]

/-- Extended-ID extraction undoes the packing. -/
theorem pack_t0_ext_id (idf : Nat) (h : idf < 2 ^ 29) (r x e : Bool) :
    pack_t0 idf r x e &&& 0x1FFFFFFF = idf := by
  apply Nat.eq_of_testBit_eq
  intro i
  rw [Nat.testBit_land, testBit_pack_t0]
  have hmask : (0x1FFFFFFF : Nat) = 2 ^ 29 - 1 := by norm_num
  rw [hmask, Nat.testBit_two_pow_sub_one]
  by_cases hi : i < 29
  · have e29 : ¬(i = 29) := by omega
    have e30 : ¬(i = 30) := by omega
    have e31 : ¬(i = 31) := by omega
    simp [hi, e29, e30, e31]
  · have hz : idf.testBit i = false :=
      Nat.testBit_eq_false_of_lt
        (lt_of_lt_of_le h (Nat.pow_le_pow_right (by norm_num) (by omega)))
    simp [hi, hz]

/-- Standard-ID extraction undoes the packing. -/
theorem pack_t0_std_id (v : Nat) (h : v < 2 ^ 11) (r x e : Bool) :
    (pack_t0 (v <<< 18) r x e >>> 18) % 65536 &&& 0x7FF = v := by
  apply Nat.eq_of_testBit_eq
  intro i
  have hmask : (0x7FF : Nat) = 2 ^ 11 - 1 := by norm_num
  have h65536 : (65536 : Nat) = 2 ^ 16 := by norm_num
  rw [Nat.testBit_land, hmask, Nat.testBit_two_pow_sub_one, h65536,
    Nat.testBit_mod_two_pow, Nat.testBit_shiftRight, testBit_pack_t0,
    Nat.testBit_shiftLeft]
  by_cases hi : i < 11
  · have h18 : 18 ≤ 18 + i := by omega
    have hsub : 18 + i - 18 = i := by omega
    have e29 : ¬(18 + i = 29) := by omega
    have e30 : ¬(18 + i = 30) := by omega
    have e31 : ¬(18 + i = 31) := by omega
    have e16 : i < 16 := by omega
    simp [hi, h18, hsub, e29, e30, e31, e16]
  · have hz : v.testBit i = false :=
      Nat.testBit_eq_false_of_lt
        (lt_of_lt_of_le h (Nat.pow_le_pow_right (by norm_num) (by omega)))
    simp [hi, hz]

/-- The FDF bit of a packed second header word is the `fdf` flag. -/
theorem pack_t1_fdf (dlc : Nat) (brs fdf efc : Bool) (mm : Nat) :
    (pack_t1 dlc brs fdf efc mm).testBit 21 = fdf := by
  rw [testBit_pack_t1]
  have h1 : ((dlc &&& 0xf) <<< 16).testBit 21 = false := by
    rw [Nat.testBit_shiftLeft]
    have hd : (dlc &&& 0xf).testBit 5 = false := by
      rw [Nat.testBit_land]
      have hm : (0xf : Nat) = 2 ^ 4 - 1 := by norm_num
      rw [hm, Nat.testBit_two_pow_sub_one]
      simp
    simp [hd]
  have h2 : (mm <<< 24).testBit 21 = false := by
    rw [Nat.testBit_shiftLeft]
    simp
  simp [h1, h2]

/-- DLC extraction undoes the packing. -/
theorem pack_t1_dlc (dlc : Nat) (hd : dlc < 16) (brs fdf efc : Bool)
    (mm : Nat) : (pack_t1 dlc brs fdf efc mm >>> 16) &&& 0xf = dlc := by
  apply Nat.eq_of_testBit_eq
  intro i
  have hmask : (0xf : Nat) = 2 ^ 4 - 1 := by norm_num
  rw [Nat.testBit_land, hmask, Nat.testBit_two_pow_sub_one,
    Nat.testBit_shiftRight, testBit_pack_t1, Nat.testBit_shiftLeft]
  by_cases hi : i < 4
  · have h16 : 16 ≤ 16 + i := by omega
    have hsub : 16 + i - 16 = i := by omega
    have e20 : ¬(16 + i = 20) := by omega
    have e21 : ¬(16 + i = 21) := by omega
    have e23 : ¬(16 + i = 23) := by omega
    have hmm : (mm <<< 24).testBit (16 + i) = false := by
      rw [Nat.testBit_shiftLeft]
      have : ¬(24 ≤ 16 + i) := by omega
      simp [this]
    have hdl : (dlc &&& 0xf).testBit i = dlc.testBit i := by
      rw [Nat.testBit_land, hmask, Nat.testBit_two_pow_sub_one]
      simp [hi]
    simp [h16, hsub, e20, e21, e23, hmm, hdl, hi]
  · have hz : dlc.testBit i = false := by
      apply Nat.testBit_eq_false_of_lt
      calc dlc < 16 := hd
        _ = 2 ^ 4 := by norm_num
        _ ≤ 2 ^ i := Nat.pow_le_pow_right (by norm_num) (by omega)
    simp [hi, hz]

set_option maxRecDepth 4000 in
/-- Bounded check over the whole `u8` domain of `len_to_dlc`: any produced
DLC fits the 4-bit field and decodes to at least the (truncated) length. -/
theorem len_to_dlc_bounded_check : ∀ l : Fin 256, ∀ fd : Bool,
    len_to_dlc l.val fd = none ∨
      ∃ d : Fin 16, len_to_dlc l.val fd = some d.val ∧
        l.val ≤ dlc_to_len d.val fd := by
  decide

/-- `len_to_dlc` is insensitive to everything above the low byte
(it matches on `len as u8`). -/
theorem len_to_dlc_mod (len : Nat) (fd : Bool) :
    len_to_dlc (len % 256) fd = len_to_dlc len fd := by
  have h : len % 256 % 256 = len % 256 := by omega
  simp only [len_to_dlc, h]

/-- Every DLC produced by `len_to_dlc` fits the 4-bit field. -/
theorem len_to_dlc_le15 {len : Nat} {fd : Bool} {d : Nat}
    (h : len_to_dlc len fd = some d) : d ≤ 15 := by
  have hlt : len % 256 < 256 := by omega
  have hb := len_to_dlc_bounded_check ⟨len % 256, hlt⟩ fd
  have hmod : len_to_dlc (len % 256) fd = some d := by
    rw [len_to_dlc_mod, h]
  rcases hb with hb | ⟨d', hd', _⟩
  · rw [hmod] at hb
    cases hb
  · have heq : some (d' : Nat) = some d := by rw [← hd']; exact hmod
    injection heq with heq
    have := d'.isLt
    omega

/-- For in-range lengths the decoded DLC length is at least the requested
length (round-up, never truncation — given `len < 256`, before the
`as u8` wrap). -/
theorem len_to_dlc_round_up {len : Nat} {fd : Bool} {d : Nat}
    (hlen : len < 256) (h : len_to_dlc len fd = some d) :
    len ≤ dlc_to_len d fd := by
  have hlt : len % 256 < 256 := by omega
  have hb := len_to_dlc_bounded_check ⟨len % 256, hlt⟩ fd
  have hmod : len_to_dlc (len % 256) fd = some d := by
    rw [len_to_dlc_mod, h]
  rcases hb with hb | ⟨d', hd', hle⟩
  · rw [hmod] at hb
    cases hb
  · have heq : some (d' : Nat) = some d := by rw [← hd']; exact hmod
    injection heq with heq
    have hle' : len % 256 ≤ dlc_to_len d' fd := hle
    rw [heq] at hle'
    omega

/-- Taking `k` elements of a zero-padded payload keeps the payload as a
prefix when `payload.length ≤ k ≤` the padded length. -/
theorem take_append_replicate (p : List Nat) (z k : Nat)
    (h1 : p.length ≤ k) (h2 : k ≤ p.length + z) :
    (p ++ List.replicate z 0).take k = p ++ List.replicate (k - p.length) 0 := by
  rw [List.take_append_eq_append_take, List.take_of_length_le h1,
    List.take_replicate]
  congr 1
  congr 1
  omega

/-- Inversion of a successful `copy_payload`. -/
theorem copy_payload_eq {N : Nat} {d data : List Nat}
    (h : copy_payload N d = some data) :
    d.length ≤ N ∧ data = d ++ List.replicate (N - d.length) 0 := by
  by_cases hlen : d.length > N
  · simp [copy_payload, hlen] at h
  · simp [copy_payload, hlen] at h
    exact ⟨by omega, h.symm⟩

/-- The standard-ID field `v << 18` of a well-formed ID fits in 29 bits. -/
theorem std_id_field_lt {v : Nat} (h : v ≤ 0x7FF) : v <<< 18 < 2 ^ 29 := by
  rw [Nat.shiftLeft_eq]
  norm_num
  omega

/-- The four header flags of an assembled raw message decode to the inputs
of the packing. -/
theorem raw_parts_flags (idf : Nat) (hidf : idf < 2 ^ 29)
    (r xtd esi brs fdf efc : Bool) (mm dlc : Nat) (hdlc : dlc < 16)
    (data : List Nat) :
    (RawMessage.mk (pack_t0 idf r xtd esi) (pack_t1 dlc brs fdf efc mm)
        data).is_extended = xtd ∧
    (RawMessage.mk (pack_t0 idf r xtd esi) (pack_t1 dlc brs fdf efc mm)
        data).is_remote_frame = r ∧
    (RawMessage.mk (pack_t0 idf r xtd esi) (pack_t1 dlc brs fdf efc mm)
        data).fd_format = fdf ∧
    (RawMessage.mk (pack_t0 idf r xtd esi) (pack_t1 dlc brs fdf efc mm)
        data).dlc = dlc := by
  refine ⟨?_, ?_, ?_, ?_⟩
  · show decide (pack_t0 idf r xtd esi &&& (1 <<< 30) ≠ 0) = xtd
    rw [land_one_shl_ne_zero, pack_t0_xtd _ hidf]
  · show decide (pack_t0 idf r xtd esi &&& (1 <<< 29) ≠ 0) = r
    rw [land_one_shl_ne_zero, pack_t0_rtr _ hidf]
  · show decide (pack_t1 dlc brs fdf efc mm &&& (1 <<< 21) ≠ 0) = fdf
    rw [land_one_shl_ne_zero, pack_t1_fdf]
  · show (pack_t1 dlc brs fdf efc mm >>> 16) &&& 0xf = dlc
    exact pack_t1_dlc _ hdlc _ _ _ _

/-- The data accessor of a zero-padded non-remote message returns the
payload padded out to `min decoded_dlc N`. -/
theorem data_field_of_padded (m : RawMessage) (payload : List Nat) (N : Nat)
    (hrem : m.is_remote_frame = false)
    (hdata : m.data = payload ++ List.replicate (N - payload.length) 0)
    (hlen : payload.length ≤ N) (hdec : payload.length ≤ m.decoded_dlc) :
    m.data_field =
      payload ++ List.replicate (min m.decoded_dlc N - payload.length) 0 := by
  have hN : m.data.length = N := by
    rw [hdata]
    simp only [List.length_append, List.length_replicate]
    omega
  unfold RawMessage.data_field
  rw [hrem, hN]
  have hminN : min m.decoded_dlc N ≤ N := min_le_right _ _
  have hslice : slice_to m.data (min m.decoded_dlc N) =
      some (m.data.take (min m.decoded_dlc N)) := by
    unfold slice_to
    rw [if_pos (by omega)]
  rw [hslice]
  simp only [Option.getD_some, Bool.not_false, if_true, hdata]
  exact take_append_replicate _ _ _ (le_min hdec hlen) (by omega)

end Message

end Mcan

namespace Mcan

namespace Message

/-- C5: for every hardware-valid DLC (`0..=15` in FD format, `0..=8` in
classic format), `len_to_dlc (dlc_to_len dlc fd) fd = Ok(dlc)`. Both
functions are total (they are defined by exhaustive `u8` matches, embedded
as total Lean functions). -/
theorem len_dlc_roundtrip (dlc : Nat) :
    (dlc ≤ 15 → len_to_dlc (dlc_to_len dlc true) true = some dlc) ∧
    (dlc ≤ 8 → len_to_dlc (dlc_to_len dlc false) false = some dlc) := by
  constructor
  · intro h
    interval_cases dlc <;> decide
  · intro h
    interval_cases dlc <;> decide

/-- Witness for `len_dlc_roundtrip` at the extreme valid DLCs. -/
theorem len_dlc_roundtrip_witness :
    len_to_dlc (dlc_to_len 15 true) true = some 15 ∧
    len_to_dlc (dlc_to_len 8 false) false = some 8 :=
  ⟨(len_dlc_roundtrip 15).1 (by decide), (len_dlc_roundtrip 8).2 (by decide)⟩

/-- C4: the `len as u8` cast in `len_to_dlc` wraps, so a classic-frame
length of 256 is accepted as DLC 0 instead of failing with `TooMuchData`,
and a remote-frame build with `desired_len = 256` succeeds with DLC 0 —
although the documentation of `len_to_dlc` promises the smallest DLC
encoding at least `len` bytes, and lengths `9..=255` are rejected as
documented. -/
theorem len_to_dlc_wraps_at_256 :
    len_to_dlc 256 false = some 0 ∧
    len_to_dlc 9 false = none ∧
    len_to_dlc 255 false = none ∧
    (build 8 ⟨.std 1, .classic (.remote 256), none⟩).map RawMessage.dlc =
      some 0 ∧
    (build 8 ⟨.std 1, .classic (.remote 256), none⟩).map
      RawMessage.is_remote_frame = some true := by
  decide

/-- C3 (counterexample): a 9-byte FD payload in a 12-byte slot decodes with
three zero bytes appended — `data()` is not the original payload, although
ID, kind and FD flag survive the round trip. -/
theorem fd_padding_breaks_payload_roundtrip :
    (build 12 ⟨.std 5, .flexibleDatarate (List.replicate 9 1) false false,
        none⟩).map RawMessage.data_field =
      some (List.replicate 9 1 ++ [0, 0, 0]) ∧
    List.replicate 9 1 ++ [0, 0, 0] ≠ List.replicate 9 1 ∧
    (build 12 ⟨.std 5, .flexibleDatarate (List.replicate 9 1) false false,
        none⟩).map RawMessage.id = some (.std 5) ∧
    (build 12 ⟨.std 5, .flexibleDatarate (List.replicate 9 1) false false,
        none⟩).map RawMessage.fd_format = some true := by
  decide

/-- Core of the C3 round trip: flag, DLC and data-field decoding of an
assembled data-frame message. -/
theorem build_core (N : Nat) (hN : N ≤ 64) (idf : Nat)
    (hidf : idf < 2 ^ 29) (xtd esi brs fd : Bool) (ev : Option Nat)
    (payload data : List Nat) (dlc : Nat)
    (hcp : copy_payload N payload = some data)
    (hdl : len_to_dlc payload.length fd = some dlc)
    (m : RawMessage)
    (hm : m = RawMessage.mk (pack_t0 idf false xtd esi)
      (pack_t1 dlc brs fd ev.isSome (ev.getD 0)) data) :
    m.is_extended = xtd ∧ m.is_remote_frame = false ∧ m.fd_format = fd ∧
    m.dlc = dlc ∧
    m.data_field =
      payload ++ List.replicate (min m.decoded_dlc N - payload.length) 0 ∧
    (m.decoded_dlc = payload.length → m.data_field = payload) := by
  obtain ⟨hlen, hdata⟩ := copy_payload_eq hcp
  have hdlc15 : dlc ≤ 15 := len_to_dlc_le15 hdl
  have hdec : payload.length ≤ dlc_to_len dlc fd :=
    len_to_dlc_round_up (by omega) hdl
  obtain ⟨hxtd, hrtr, hfdf, hdlcv⟩ :=
    raw_parts_flags idf hidf false xtd esi brs fd ev.isSome (ev.getD 0) dlc
      (by omega) data
  rw [← hm] at hxtd hrtr hfdf hdlcv
  have hdecoded : m.decoded_dlc = dlc_to_len dlc fd := by
    unfold RawMessage.decoded_dlc
    rw [hfdf, hdlcv]
  have hfield := data_field_of_padded m payload N hrtr
    (by rw [hm]; exact hdata) hlen (by rw [hdecoded]; exact hdec)
  refine ⟨hxtd, hrtr, hfdf, hdlcv, hfield, ?_⟩
  intro hdl2
  rw [hfield, hdl2]
  have hmin : min payload.length N = payload.length := by omega
  rw [hmin]
  simp

/-- C3 (amended): building a data frame and decoding it back yields the
same CAN ID, the same standard/extended kind, the same FD flag, a clear
RTR flag, and a data field equal to the payload zero-padded to the decoded
DLC length (capped at the slot width); the data field equals the payload
exactly when the payload length is itself an encodable DLC length — always
the case for classic frames, and for FD payload lengths in
{0..8, 12, 16, 20, 24, 32, 48, 64}. -/
theorem build_decode_roundtrip (N : Nat) (hN : N ≤ 64) (id : CanId)
    (hid : id.wf) (payload : List Nat) (fd brs esi : Bool) (ev : Option Nat)
    (m : RawMessage)
    (hb : build N ⟨id, if fd then .flexibleDatarate payload brs esi
        else .classic (.data payload), ev⟩ = some m) :
    m.id = id ∧ m.is_extended = id.isExt ∧ m.is_remote_frame = false ∧
    m.fd_format = fd ∧
    m.data_field =
      payload ++ List.replicate (min m.decoded_dlc N - payload.length) 0 ∧
    (m.decoded_dlc = payload.length → m.data_field = payload) := by
  cases id with
  | std v =>
    have hvlt : v < 2 ^ 11 := by
      have : v ≤ 0x7FF := hid
      norm_num
      omega
    have hidf : v <<< 18 < 2 ^ 29 := std_id_field_lt hid
    cases fd with
    | false =>
      rw [if_neg (by simp)] at hb
      cases hcp : copy_payload N payload with
      | none =>
        rw [build] at hb
        simp only [hcp] at hb
        exact Option.noConfusion hb
      | some data =>
        cases hdl : len_to_dlc payload.length false with
        | none =>
          rw [build] at hb
          simp only [hcp, hdl] at hb
          exact Option.noConfusion hb
        | some dlc =>
          rw [build] at hb
          simp only [hcp, hdl] at hb
          have hm := hb
          injection hm with hm
          obtain ⟨h1, h2, h3, h4, h5, h6⟩ := build_core N hN (v <<< 18) hidf
            false false false false ev payload data dlc hcp hdl m hm.symm
          refine ⟨?_, ?_, h2, h3, h5, h6⟩
          · unfold RawMessage.id
            rw [h1]
            simp only [Bool.false_eq_true, if_false]
            rw [hm.symm]
            show CanId.std ((pack_t0 (v <<< 18) false false false >>> 18)
              % 65536 &&& 0x7FF) = CanId.std v
            rw [pack_t0_std_id v hvlt]
          · rw [h1]
            rfl
    | true =>
      rw [if_pos rfl] at hb
      cases hcp : copy_payload N payload with
      | none =>
        rw [build] at hb
        simp only [hcp] at hb
        exact Option.noConfusion hb
      | some data =>
        cases hdl : len_to_dlc payload.length true with
        | none =>
          rw [build] at hb
          simp only [hcp, hdl] at hb
          exact Option.noConfusion hb
        | some dlc =>
          rw [build] at hb
          simp only [hcp, hdl] at hb
          have hm := hb
          injection hm with hm
          obtain ⟨h1, h2, h3, h4, h5, h6⟩ := build_core N hN (v <<< 18) hidf
            false esi brs true ev payload data dlc hcp hdl m hm.symm
          refine ⟨?_, ?_, h2, h3, h5, h6⟩
          · unfold RawMessage.id
            rw [h1]
            simp only [Bool.false_eq_true, if_false]
            rw [hm.symm]
            show CanId.std ((pack_t0 (v <<< 18) false false esi >>> 18)
              % 65536 &&& 0x7FF) = CanId.std v
            rw [pack_t0_std_id v hvlt]
          · rw [h1]
            rfl
  | ext v =>
    have hidf : v < 2 ^ 29 := by
      have : v ≤ 0x1FFFFFFF := hid
      norm_num
      omega
    cases fd with
    | false =>
      rw [if_neg (by simp)] at hb
      cases hcp : copy_payload N payload with
      | none =>
        rw [build] at hb
        simp only [hcp] at hb
        exact Option.noConfusion hb
      | some data =>
        cases hdl : len_to_dlc payload.length false with
        | none =>
          rw [build] at hb
          simp only [hcp, hdl] at hb
          exact Option.noConfusion hb
        | some dlc =>
          rw [build] at hb
          simp only [hcp, hdl] at hb
          have hm := hb
          injection hm with hm
          obtain ⟨h1, h2, h3, h4, h5, h6⟩ := build_core N hN v hidf
            true false false false ev payload data dlc hcp hdl m hm.symm
          refine ⟨?_, ?_, h2, h3, h5, h6⟩
          · unfold RawMessage.id
            rw [h1]
            simp only [if_true]
            rw [hm.symm]
            show CanId.ext (pack_t0 v false true false &&& 0x1FFFFFFF) =
              CanId.ext v
            rw [pack_t0_ext_id v hidf]
          · rw [h1]
            rfl
    | true =>
      rw [if_pos rfl] at hb
      cases hcp : copy_payload N payload with
      | none =>
        rw [build] at hb
        simp only [hcp] at hb
        exact Option.noConfusion hb
      | some data =>
        cases hdl : len_to_dlc payload.length true with
        | none =>
          rw [build] at hb
          simp only [hcp, hdl] at hb
          exact Option.noConfusion hb
        | some dlc =>
          rw [build] at hb
          simp only [hcp, hdl] at hb
          have hm := hb
          injection hm with hm
          obtain ⟨h1, h2, h3, h4, h5, h6⟩ := build_core N hN v hidf
            true esi brs true ev payload data dlc hcp hdl m hm.symm
          refine ⟨?_, ?_, h2, h3, h5, h6⟩
          · unfold RawMessage.id
            rw [h1]
            simp only [if_true]
            rw [hm.symm]
            show CanId.ext (pack_t0 v false true esi &&& 0x1FFFFFFF) =
              CanId.ext v
            rw [pack_t0_ext_id v hidf]
          · rw [h1]
            rfl

/-- Witness for `build_decode_roundtrip`: a 3-byte classic frame in an
8-byte slot decodes to exactly its ID and payload. -/
theorem build_decode_roundtrip_witness :
    RawMessage.id ⟨pack_t0 (5 <<< 18) false false false,
      pack_t1 3 false false false 0, [1, 2, 3, 0, 0, 0, 0, 0]⟩ =
      CanId.std 5 ∧
    RawMessage.data_field ⟨pack_t0 (5 <<< 18) false false false,
      pack_t1 3 false false false 0, [1, 2, 3, 0, 0, 0, 0, 0]⟩ =
      [1, 2, 3] := by
  have h := build_decode_roundtrip 8 (by decide) (.std 5) (by decide)
    [1, 2, 3] false false false none
    ⟨pack_t0 (5 <<< 18) false false false, pack_t1 3 false false false 0,
      [1, 2, 3, 0, 0, 0, 0, 0]⟩ (by decide)
  exact ⟨h.1, h.2.2.2.2.2 (by decide)⟩

/-- C10: the `data()` accessor is total; it returns the empty slice for
every remote frame regardless of DLC and payload, and otherwise exactly the
first `min(decoded DLC length, slot width)` payload bytes — the inner slice
`data.get(..k)` never fails and the result never exceeds the slot
capacity. -/
theorem data_field_total_spec (m : RawMessage) :
    (m.is_remote_frame = true → m.data_field = []) ∧
    (m.is_remote_frame = false →
      m.data_field = m.data.take (min m.decoded_dlc m.data.length)) ∧
    m.data_field.length ≤ m.data.length := by
  have hmin : min m.decoded_dlc m.data.length ≤ m.data.length :=
    min_le_right _ _
  have hslice : slice_to m.data (min m.decoded_dlc m.data.length) =
      some (m.data.take (min m.decoded_dlc m.data.length)) := by
    unfold slice_to
    rw [if_pos hmin]
  refine ⟨?_, ?_, ?_⟩
  · intro h
    unfold RawMessage.data_field
    rw [h]
    simp
  · intro h
    unfold RawMessage.data_field
    rw [h]
    simp [hslice]
  · cases hr : m.is_remote_frame with
    | true =>
      unfold RawMessage.data_field
      rw [hr]
      simp
    | false =>
      unfold RawMessage.data_field
      rw [hr]
      simp only [Bool.not_false, if_true, hslice, Option.getD_some,
        Bool.false_eq_true, not_false_iff, List.length_take]
      omega

/-- Witness for `data_field_total_spec`: a remote frame yields `[]`, a
2-byte classic data frame in a 3-byte slot yields its first two bytes. -/
theorem data_field_total_spec_witness :
    RawMessage.data_field ⟨1 <<< 29, 2 <<< 16, [5, 6]⟩ = [] ∧
    RawMessage.data_field ⟨0, 2 <<< 16, [7, 8, 9]⟩ = [7, 8] := by
  refine ⟨(data_field_total_spec _).1 (by decide), ?_⟩
  have h := (data_field_total_spec ⟨0, 2 <<< 16, [7, 8, 9]⟩).2.1 (by decide)
  rw [h]
  decide

end Message

end Mcan

namespace Mcan

namespace Interrupt

/-! ## Interrupt-registry lemmas (C6) -/

/-- Complement bits below the width. -/
theorem testBit_not32_lo (x i : Nat) (hi : i < 32) :
    (not32 x).testBit i = !x.testBit i := by
  unfold not32
  rw [Nat.testBit_xor]
  have hm : (0xFFFFFFFF : Nat) = 2 ^ 32 - 1 := by norm_num
  rw [hm, Nat.testBit_two_pow_sub_one]
  simp [hi]

/-- Complement bits at and above the width are untouched. -/
theorem testBit_not32_hi (x i : Nat) (hi : 32 ≤ i) :
    (not32 x).testBit i = x.testBit i := by
  unfold not32
  rw [Nat.testBit_xor]
  have hm : (0xFFFFFFFF : Nat) = 2 ^ 32 - 1 := by norm_num
  rw [hm, Nat.testBit_two_pow_sub_one]
  have : ¬(i < 32) := by omega
  simp [this]

/-- A high bit of a 32-bit value is clear. -/
theorem testBit_hi_false {x : Nat} (hx : x < 2 ^ 32) {i : Nat}
    (hi : 32 ≤ i) : x.testBit i = false :=
  Nat.testBit_eq_false_of_lt
    (lt_of_lt_of_le hx (Nat.pow_le_pow_right (by norm_num) hi))

/-- Bit-level description of `split_missing` for 32-bit operands. -/
theorem testBit_split_missing {reg req : Nat} (hreg : reg < 2 ^ 32)
    (hreq : req < 2 ^ 32) (i : Nat) :
    (split_missing reg req).testBit i =
      (req.testBit i && !reg.testBit i) := by
  unfold split_missing
  rw [Nat.testBit_land]
  by_cases hi : i < 32
  · rw [testBit_not32_lo _ _ hi]
    cases req.testBit i <;> cases reg.testBit i <;> simp
  · rw [testBit_not32_hi _ _ (by omega)]
    rw [testBit_hi_false hreg (by omega), testBit_hi_false hreq (by omega)]
    simp

/-- If the whole request is available, every requested flag is in the
registry. -/
theorem subset_of_split_missing_zero {reg req : Nat} (hreg : reg < 2 ^ 32)
    (hreq : req < 2 ^ 32) (h : split_missing reg req = 0) :
    ∀ i, req.testBit i = true → reg.testBit i = true := by
  intro i hi
  by_contra hr
  have hr' : reg.testBit i = false := by
    cases hreg' : reg.testBit i
    · rfl
    · exact absurd hreg' hr
  have hbit : (split_missing reg req).testBit i = true := by
    rw [testBit_split_missing hreg hreq, hi, hr']
    rfl
  rw [h, Nat.zero_testBit] at hbit
  cases hbit

/-- Narrowing preserves disjointness on the left. -/
theorem land_left_absorb {a c : Nat} (h : a &&& c = 0) (b : Nat) :
    (a &&& b) &&& c = 0 := by
  apply land_eq_zero_iff.mpr
  intro i ⟨hab, hc⟩
  rw [Nat.testBit_land] at hab
  exact land_eq_zero_iff.mp h i ⟨by
    cases ha : a.testBit i
    · rw [ha] at hab
      cases hab
    · rfl, hc⟩

/-- A subset (bitwise) of a mask disjoint from `c` is disjoint from `c`. -/
theorem land_zero_of_subset {a b c : Nat}
    (hsub : ∀ i, a.testBit i = true → b.testBit i = true)
    (h : b &&& c = 0) : a &&& c = 0 := by
  apply land_eq_zero_iff.mpr
  intro i ⟨ha, hc⟩
  exact land_eq_zero_iff.mp h i ⟨hsub i ha, hc⟩

/-- The registry remainder is disjoint from the granted request. -/
theorem remainder_disjoint (reg req : Nat) (hreq : req < 2 ^ 32) :
    (reg &&& not32 req) &&& req = 0 := by
  apply land_eq_zero_iff.mpr
  intro i ⟨hl, hr⟩
  rw [Nat.testBit_land] at hl
  have hi : i < 32 := by
    by_contra h32
    rw [testBit_hi_false hreq (by omega)] at hr
    cases hr
  rw [testBit_not32_lo _ _ hi, hr] at hl
  simp at hl

/-- A union is disjoint from `c` when both halves are. -/
theorem lor_land_zero {a b c : Nat} (ha : a &&& c = 0) (hb : b &&& c = 0) :
    (a ||| b) &&& c = 0 := by
  apply land_eq_zero_iff.mpr
  intro i ⟨hab, hc⟩
  rw [Nat.testBit_lor] at hab
  rcases Bool.or_eq_true_iff.mp hab with h | h
  · exact land_eq_zero_iff.mp ha i ⟨h, hc⟩
  · exact land_eq_zero_iff.mp hb i ⟨h, hc⟩

/-- A union of 32-bit values is 32-bit. -/
theorem lor_lt_two_pow_32 {x y : Nat} (hx : x < 2 ^ 32) (hy : y < 2 ^ 32) :
    x ||| y < 2 ^ 32 :=
  Nat.bitwise_lt hx hy

/-- One registry operation preserves the ownership invariant. -/
theorem masks_disjoint_step (st : RegistryState) (op : RegistryOp)
    (hwf : op.wf) (hinv : MasksDisjoint st) :
    MasksDisjoint (registry_step st op) := by
  obtain ⟨hpair, hlt⟩ := hinv
  cases op with
  | enable req =>
    have hreq : req < 2 ^ 32 := hwf
    show MasksDisjoint (enable st req).2
    unfold enable
    by_cases hm : split_missing st.registry req ≠ 0
    · rw [if_pos hm]
      exact ⟨hpair, hlt⟩
    · rw [if_neg hm]
      push_neg at hm
      have hreg : st.registry < 2 ^ 32 := hlt _ (by simp)
      rw [List.pairwise_cons] at hpair
      obtain ⟨hhead, htail⟩ := hpair
      have hsub := subset_of_split_missing_zero hreg hreq hm
      constructor
      · rw [List.pairwise_cons]
        refine ⟨?_, ?_⟩
        · intro b hb
          rcases List.mem_cons.mp hb with hb | hb
          · rw [hb]
            exact remainder_disjoint st.registry req hreq
          · exact land_left_absorb (hhead b hb) _
        · rw [List.pairwise_cons]
          exact ⟨fun h hh => land_zero_of_subset hsub (hhead h hh), htail⟩
      · intro m hmem
        rcases List.mem_cons.mp hmem with hmem | hmem
        · rw [hmem]
          calc st.registry &&& not32 req ≤ st.registry := Nat.and_le_left
            _ < 2 ^ 32 := hreg
        · rcases List.mem_cons.mp hmem with hmem | hmem
          · rw [hmem]
            exact hreq
          · exact hlt _ (List.mem_cons_of_mem _ hmem)
  | disable h =>
    show MasksDisjoint (disable st h)
    unfold disable
    by_cases hmem : h ∈ st.handles
    · rw [if_pos hmem]
      obtain ⟨l₁, l₂, _, hsplit, herase⟩ := List.exists_erase_eq hmem
      rw [List.pairwise_cons] at hpair
      obtain ⟨hhead, htail⟩ := hpair
      rw [hsplit, List.pairwise_append] at htail
      obtain ⟨hp1, hp2, hcross⟩ := htail
      rw [List.pairwise_cons] at hp2
      obtain ⟨hh2, hp2'⟩ := hp2
      have hhmem : h ∈ st.handles := hmem
      have hreg : st.registry < 2 ^ 32 := hlt _ (by simp)
      have hhlt : h < 2 ^ 32 := hlt _ (List.mem_cons_of_mem _ hhmem)
      constructor
      · rw [herase, List.pairwise_cons]
        refine ⟨?_, ?_⟩
        · intro g hg
          rcases List.mem_append.mp hg with hg | hg
          · refine lor_land_zero (hhead g ?_) ?_
            · rw [hsplit]
              exact List.mem_append.mpr (Or.inl hg)
            · have := hcross g hg h (by simp)
              rw [Nat.land_comm]
              exact this
          · refine lor_land_zero (hhead g ?_) (hh2 g hg)
            rw [hsplit]
            exact List.mem_append.mpr (Or.inr (List.mem_cons_of_mem _ hg))
        · rw [List.pairwise_append]
          exact ⟨hp1, hp2', fun a ha b hb =>
            hcross a ha b (List.mem_cons_of_mem _ hb)⟩
      · intro m hmem'
        rcases List.mem_cons.mp hmem' with hmem' | hmem'
        · rw [hmem']
          exact lor_lt_two_pow_32 hreg hhlt
        · refine hlt _ (List.mem_cons_of_mem _ ?_)
          rw [herase] at hmem'
          rw [hsplit]
          rcases List.mem_append.mp hmem' with hx | hx
          · exact List.mem_append.mpr (Or.inl hx)
          · exact List.mem_append.mpr (Or.inr (List.mem_cons_of_mem _ hx))
    · rw [if_neg hmem]
      exact ⟨hpair, hlt⟩

/-- The invariant holds along any well-formed operation sequence. -/
theorem masks_disjoint_foldl (ops : List RegistryOp) :
    ∀ st, MasksDisjoint st → (∀ op ∈ ops, op.wf) →
      MasksDisjoint (ops.foldl registry_step st) := by
  induction ops with
  | nil =>
    intro st h _
    exact h
  | cons op ops ih =>
    intro st h hwf
    rw [List.foldl_cons]
    exact ih _ (masks_disjoint_step _ _ (hwf op (by simp)) h)
      (fun o ho => hwf o (List.mem_cons_of_mem _ ho))

/-- The initial registry state satisfies the invariant. -/
theorem masks_disjoint_init : MasksDisjoint registry_init := by
  refine ⟨List.pairwise_singleton _ _, ?_⟩
  intro m hm
  rcases List.mem_cons.mp hm with hm | hm
  · rw [hm]
    norm_num [registry_init]
  · cases hm

/-- C6: across every (well-formed) sequence of registry `enable`/`disable`
operations the registry mask and the outstanding handle masks stay pairwise
disjoint (no flag owned twice), and an `enable` request containing any flag
not currently held by the registry fails with a `MaskError` carrying
exactly the requested-but-unavailable flags, leaving the state — hence all
ownership — unchanged. -/
theorem interrupt_ownership (ops : List RegistryOp) (hwf : OpsWf ops) :
    MasksDisjoint (registry_run ops) ∧
    ∀ req, req < 2 ^ 32 →
      (∃ i, req.testBit i = true ∧
        (registry_run ops).registry.testBit i = false) →
      enable (registry_run ops) req =
        (.maskError (split_missing (registry_run ops).registry req),
          registry_run ops) ∧
      split_missing (registry_run ops).registry req ≠ 0 ∧
      ∀ i, (split_missing (registry_run ops).registry req).testBit i = true ↔
        (req.testBit i = true ∧
          (registry_run ops).registry.testBit i = false) := by
  have hinv : MasksDisjoint (registry_run ops) :=
    masks_disjoint_foldl ops registry_init masks_disjoint_init hwf
  refine ⟨hinv, ?_⟩
  intro req hreq ⟨i, hbit, hregbit⟩
  have hreg : (registry_run ops).registry < 2 ^ 32 := hinv.2 _ (by simp)
  have hmiss : split_missing (registry_run ops).registry req ≠ 0 := by
    intro h0
    have := testBit_split_missing hreg hreq i
    rw [h0, Nat.zero_testBit, hbit, hregbit] at this
    cases this
  refine ⟨?_, hmiss, ?_⟩
  · unfold enable
    rw [if_pos hmiss]
  · intro j
    rw [testBit_split_missing hreg hreq j]
    cases hr : req.testBit j <;> cases hg : (registry_run ops).registry.testBit j <;> simp

/-- Witness for `interrupt_ownership`: grant flag 0x3, return it, grant
flag 29; requesting the reserved flag 30 fails with exactly that flag and
the invariant holds throughout. -/
theorem interrupt_ownership_witness :
    MasksDisjoint (registry_run
      [.enable 3, .disable 3, .enable (1 <<< 29)]) ∧
    (enable (registry_run [.enable 3, .disable 3, .enable (1 <<< 29)])
        (1 <<< 30)).1 = .maskError (1 <<< 30) := by
  have h := interrupt_ownership [.enable 3, .disable 3, .enable (1 <<< 29)]
    (by intro op hop; fin_cases hop <;> decide)
  refine ⟨h.1, ?_⟩
  have h2 := (h.2 (1 <<< 30) (by decide) ⟨30, by decide, by decide⟩).1
  rw [h2]
  decide

end Interrupt

end Mcan

namespace Mcan

namespace RxDedicated

open Message

/-! ## Dedicated RX buffer lemmas (C7, C8) -/

/-- C7: the NDAT2 branch of `mark_buffer_read` computes `1u32 << index`
with the un-rebased index, an overflowing shift for every index in 32..=63
(the sibling `has_new_data` correctly uses `index - 32`): with overflow
checks the call panics; in release builds the shift amount is masked, which
happens to write bit `index - 32` as the claim demands. At `index = 32`
the flag is pending, the message is returned, and (release semantics) the
write clears exactly NDAT2 bit 0; a clear flag yields `WouldBlock` and
index 64 yields `OutOfBounds`. -/
theorem mark_buffer_read_shift_bug :
    mark_buffer_read_shift_overflow 32 = true ∧
    mark_buffer_read_shift_overflow 63 = true ∧
    mark_buffer_read_shift_overflow 31 = false ∧
    mark_buffer_read_write 32 = some (true, 1 <<< 0) ∧
    mark_buffer_read_write 45 = some (true, 1 <<< 13) ∧
    (receive ⟨0, 1, List.replicate 33 (RawMessage.mk 0 0 [])⟩ 32).1 =
      .ok (RawMessage.mk 0 0 []) ∧
    (receive ⟨0, 1, List.replicate 33 (RawMessage.mk 0 0 [])⟩ 32).2.ndat2
      = 0 ∧
    (receive ⟨0, 0, List.replicate 33 (RawMessage.mk 0 0 [])⟩ 32).1 =
      .wouldBlock ∧
    (receive ⟨0, 1, List.replicate 33 (RawMessage.mk 0 0 [])⟩ 64).1 =
      .outOfBounds := by
  decide

/-- The foldl underlying `min_by_key_first` returns its seed or a list
element. -/
theorem foldl_min_mem {α : Type} (key : α → Nat) (xs : List α) (x : α) :
    xs.foldl (fun a b => if key b < key a then b else a) x = x ∨
      xs.foldl (fun a b => if key b < key a then b else a) x ∈ xs := by
  induction xs generalizing x with
  | nil =>
    left
    rfl
  | cons y ys ih =>
    rw [List.foldl_cons]
    rcases ih (if key y < key x then y else x) with h | h
    · by_cases hk : key y < key x
      · right
        rw [h, if_pos hk]
        simp
      · left
        rw [h, if_neg hk]
    · right
      exact List.mem_cons_of_mem _ h

/-- The foldl underlying `min_by_key_first` minimises the key. -/
theorem foldl_min_le {α : Type} (key : α → Nat) (xs : List α) (x : α) :
    key (xs.foldl (fun a b => if key b < key a then b else a) x) ≤ key x ∧
    ∀ y ∈ xs,
      key (xs.foldl (fun a b => if key b < key a then b else a) x) ≤
        key y := by
  induction xs generalizing x with
  | nil =>
    exact ⟨le_refl _, by simp⟩
  | cons y ys ih =>
    rw [List.foldl_cons]
    obtain ⟨h1, h2⟩ := ih (if key y < key x then y else x)
    constructor
    · refine le_trans h1 ?_
      by_cases hk : key y < key x
      · rw [if_pos hk]
        omega
      · rw [if_neg hk]
    · intro z hz
      rcases List.mem_cons.mp hz with hz | hz
      · subst hz
        refine le_trans h1 ?_
        by_cases hk : key z < key x
        · rw [if_pos hk]
        · rw [if_neg hk]
          omega
      · exact h2 z hz

/-- Specification of `min_by_key_first`: empty input gives `none`, and a
returned element is a member minimising the key. -/
theorem min_by_key_first_spec {α : Type} (key : α → Nat) (l : List α) :
    (l = [] → min_by_key_first key l = none) ∧
    ∀ m, min_by_key_first key l = some m →
      m ∈ l ∧ ∀ y ∈ l, key m ≤ key y := by
  cases l with
  | nil =>
    refine ⟨fun _ => rfl, ?_⟩
    intro m h
    cases h
  | cons x xs =>
    refine ⟨fun h => List.noConfusion h, ?_⟩
    intro m h
    unfold min_by_key_first at h
    injection h with h
    subst h
    constructor
    · rcases foldl_min_mem key xs x with h | h
      · rw [h]
        simp
      · exact List.mem_cons_of_mem _ h
    · intro y hy
      obtain ⟨h1, h2⟩ := foldl_min_le key xs x
      rcases List.mem_cons.mp hy with hy | hy
      · subst hy
        exact h1
      · exact h2 y hy

/-- Membership in `pending_list` is exactly "in range, flagged, and the
slot content". -/
theorem mem_pending_list (st : RxState) (i : Nat) (m : RawMessage) :
    (i, m) ∈ pending_list st ↔
      (i < st.mem.length ∧ has_new_data st i = true ∧
        st.mem.get? i = some m) := by
  unfold pending_list
  rw [List.mem_filterMap]
  constructor
  · rintro ⟨j, hj, hf⟩
    rw [List.mem_range] at hj
    cases hg : st.mem.get? j with
    | none =>
      rw [hg] at hf
      cases hf
    | some m' =>
      simp only [hg] at hf
      by_cases hn : has_new_data st j = true
      · rw [if_pos hn] at hf
        injection hf with hf
        rw [Prod.mk.injEq] at hf
        obtain ⟨h1, h2⟩ := hf
        subst h1
        subst h2
        exact ⟨hj, hn, hg⟩
      · rw [if_neg hn] at hf
        cases hf
  · rintro ⟨hi, hn, hg⟩
    refine ⟨i, List.mem_range.mpr hi, ?_⟩
    simp only [hg]
    rw [if_pos hn]

/-- Clearing one low bit of a 32-bit register (write-one-to-clear with a
single-bit value): every other bit survives. -/
theorem clear_single_bit (x k j : Nat) (hk : k < 32) (hj : j < 32) :
    (x &&& not32 ((1 <<< k) % 2 ^ 32)).testBit j =
      (if j = k then false else x.testBit j) := by
  have hlt : (1 <<< k) % 2 ^ 32 = 1 <<< k := by
    apply Nat.mod_eq_of_lt
    rw [Nat.shiftLeft_eq, one_mul]
    exact Nat.pow_lt_pow_right (by norm_num) hk
  rw [hlt, Nat.testBit_land, Interrupt.testBit_not32_lo _ _ hj]
  have hone : (1 : Nat) <<< k = (true : Bool).toNat <<< k := by simp
  rw [hone, testBit_bool_shl]
  by_cases hjk : j = k
  · simp [hjk]
  · simp [hjk]

/-- Reduced form of `mark_buffer_read` for indices 0..=31. -/
theorem mark_buffer_read_eq_lo (st : RxState) (i : Nat) (hi : i < 32) :
    mark_buffer_read st i =
      ⟨st.ndat1 &&& not32 ((1 <<< i) % 2 ^ 32), st.ndat2, st.mem⟩ := by
  simp only [mark_buffer_read, mark_buffer_read_write, if_pos hi]

/-- Reduced form of `mark_buffer_read` for indices 32..=63. -/
theorem mark_buffer_read_eq_hi (st : RxState) (i : Nat) (h32 : 32 ≤ i)
    (hi : i < 64) :
    mark_buffer_read st i =
      ⟨st.ndat1, st.ndat2 &&& not32 ((1 <<< (i % 32)) % 2 ^ 32),
        st.mem⟩ := by
  simp only [mark_buffer_read, mark_buffer_read_write,
    if_neg (by omega : ¬i < 32), if_pos hi]

/-- Effect of `mark_buffer_read` (release semantics) on the new-data flags:
exactly the chosen buffer's flag is cleared — for indices 32..=63 via the
shift-amount masking described in `mark_buffer_read_write`. -/
theorem has_new_data_mark_buffer_read (st : RxState) (i : Nat) (hi : i < 64)
    (j : Nat) (hj : j < 64) :
    has_new_data (mark_buffer_read st i) j =
      (if j = i then false else has_new_data st j) := by
  by_cases hi32 : i < 32
  · rw [mark_buffer_read_eq_lo st i hi32]
    unfold has_new_data
    by_cases hj32 : j < 32
    · rw [if_pos hj32, if_pos hj32, land_one_shl_ne_zero,
        clear_single_bit _ _ _ hi32 hj32]
      by_cases hjk : j = i
      · rw [if_pos hjk, if_pos hjk]
      · rw [if_neg hjk, if_neg hjk, land_one_shl_ne_zero]
    · have hjk : ¬j = i := by omega
      rw [if_neg hjk, if_neg hj32, if_neg hj32, if_pos hj]
  · have h32le : 32 ≤ i := by omega
    rw [mark_buffer_read_eq_hi st i h32le hi]
    unfold has_new_data
    by_cases hj32 : j < 32
    · have hjk : ¬j = i := by omega
      rw [if_neg hjk, if_pos hj32, if_pos hj32]
    · rw [if_neg hj32, if_pos hj, land_one_shl_ne_zero,
        clear_single_bit _ _ _ (by omega) (by omega)]
      have hmod : i % 32 = i - 32 := by omega
      rw [hmod]
      by_cases hjk : j = i
      · rw [if_pos (by omega : j - 32 = i - 32), if_pos hjk]
      · rw [if_neg (by omega : ¬j - 32 = i - 32), if_neg hjk, if_neg hj32,
          if_pos hj, land_one_shl_ne_zero]

/-- C8 (counterexample): with buffer 0 holding standard ID 2 and buffer 1
holding extended ID 0x3FFFF, both flagged, `receive_any` returns the
extended-ID message (it is smaller in the `embedded-can` arbitration
order), although the standard message has the numerically lowest
identifier. -/
theorem receive_any_not_numeric_min :
    ((receive_any ⟨3, 0, [RawMessage.mk (2 <<< 18) 0 [],
        RawMessage.mk (0x3FFFF ||| (1 <<< 30)) 0 []]⟩).map Prod.fst) =
      some (RawMessage.mk (0x3FFFF ||| (1 <<< 30)) 0 []) ∧
    (RawMessage.mk (0x3FFFF ||| (1 <<< 30)) 0 []).id = .ext 0x3FFFF ∧
    (RawMessage.mk (2 <<< 18) 0 []).id = .std 2 ∧
    has_new_data ⟨3, 0, [RawMessage.mk (2 <<< 18) 0 [],
      RawMessage.mk (0x3FFFF ||| (1 <<< 30)) 0 []]⟩ 0 = true ∧
    CanId.numeric (.std 2) < CanId.numeric (.ext 0x3FFFF) := by
  decide

/-- C8 (amended): when no dedicated buffer is pending, `receive_any`
would-block; otherwise it returns a pending message that is minimal in the
`embedded-can` CAN-arbitration order on identifiers (numerically lowest
among IDs of the same kind) and clears exactly that buffer's new-data
flag. -/
theorem receive_any_selects_arbitration_min (st : RxState) :
    ((∀ i, i < st.mem.length → has_new_data st i = false) →
      receive_any st = none) ∧
    ∀ m st', receive_any st = some (m, st') →
      ∃ i, i < st.mem.length ∧ has_new_data st i = true ∧
        st.mem.get? i = some m ∧ st' = mark_buffer_read st i ∧
        (∀ j m', j < st.mem.length → has_new_data st j = true →
          st.mem.get? j = some m' →
          m.id.arbitration_key ≤ m'.id.arbitration_key) ∧
        (∀ j, j < 64 →
          has_new_data st' j = (if j = i then false else has_new_data st j)) := by
  constructor
  · intro hnone
    unfold receive_any
    have hempty : pending_list st = [] := by
      unfold pending_list
      rw [List.filterMap_eq_nil_iff]
      intro j hj
      rw [List.mem_range] at hj
      cases hg : st.mem.get? j with
      | none => rfl
      | some m' =>
        simp only [hg, hnone j hj]
        simp
    rw [hempty]
    rfl
  · intro m st' h
    unfold receive_any at h
    cases hmin : min_by_key_first (fun p => p.2.id.arbitration_key)
        (pending_list st) with
    | none =>
      rw [hmin] at h
      cases h
    | some p =>
      obtain ⟨i0, m0⟩ := p
      rw [hmin] at h
      injection h with h
      rw [Prod.mk.injEq] at h
      obtain ⟨hm, hst⟩ := h
      subst hm
      obtain ⟨hmem, hle⟩ :=
        (min_by_key_first_spec _ (pending_list st)).2 _ hmin
      obtain ⟨hi, hn, hg⟩ := (mem_pending_list st i0 m0).mp hmem
      have hi64 : i0 < 64 ∨ ¬(i0 < 64) := em _
      refine ⟨i0, hi, hn, hg, hst.symm, ?_, ?_⟩
      · intro j m' hj hnj hgj
        exact hle (j, m') ((mem_pending_list st j m').mpr ⟨hj, hnj, hgj⟩)
      · intro j hj
        have hi64 : i0 < 64 := by
          by_contra h64
          unfold has_new_data at hn
          rw [if_neg (by omega), if_neg (by omega)] at hn
          cases hn
        rw [← hst]
        exact has_new_data_mark_buffer_read st i0 hi64 j hj

/-- Witness for `receive_any_selects_arbitration_min`: a single unflagged
buffer yields `WouldBlock`. -/
theorem receive_any_selects_arbitration_min_witness :
    receive_any ⟨0, 0, [RawMessage.mk 0 0 []]⟩ = none :=
  (receive_any_selects_arbitration_min ⟨0, 0, [RawMessage.mk 0 0 []]⟩).1
    (by decide)

end RxDedicated

end Mcan

namespace Mcan

namespace TxBuffers

/-! ## Transmit accessor (C9) -/

/-- C9: `transmit_dedicated` guards with `index > count` instead of
`index >= count`, so with 2 dedicated buffers out of 4 total the call at
`index = 2` is accepted: it writes message-RAM slot 2 (the first queue
slot) and pulses its TXBAR add request, returning `Ok`; `index = 3` is
rejected with `OutOfBounds` and no write, as the claim demands for every
index at or beyond the dedicated count. -/
theorem transmit_dedicated_off_by_one :
    transmit_dedicated 2 ⟨0, 0, [0, 0, 0, 0]⟩ 2 7 =
      (.ok (), ⟨4, 0, [0, 0, 7, 0]⟩) ∧
    transmit_dedicated 2 ⟨0, 0, [0, 0, 0, 0]⟩ 3 7 =
      (.outOfBounds, ⟨0, 0, [0, 0, 0, 0]⟩) ∧
    (transmit_dedicated 2 ⟨0, 0, [0, 0, 0, 0]⟩ 2 7).2.mem ≠
      [0, 0, 0, 0] ∧
    (transmit_dedicated 2 ⟨0, 0, [0, 0, 0, 0]⟩ 2 7).2.txbar ≠ 0 := by
  decide

end TxBuffers

namespace Bus

/-! ## Addressability and construction (C2) -/

/-- C2 (counterexample): for a region placed below the eligible base the
constructor fails with `MemoryNotAddressableError`, but its hardware trace
is not empty — the switch into configuration mode (a CCCR write/poll
sequence) precedes the addressability check. -/
theorem can_new_writes_before_check :
    can_new 0x20000000 0x10000000 64 =
      (.memoryNotAddressable, [NewEvent.enterConfigurationMode]) ∧
    [NewEvent.enterConfigurationMode] ≠ ([] : List NewEvent) := by
  decide

/-- C2 (amended): for every placement whose `[start, start + size)` lies
outside the 64 KiB window starting at the eligible base,
`is_addressable` returns `false` and `CanConfigurable::new` fails with
`MemoryNotAddressableError` without performing any Message-RAM-layout or
configuration register write — the only preceding hardware interaction is
entering configuration mode. -/
theorem is_addressable_outside_window (base start size : Nat)
    (h : ¬(base ≤ start ∧ start + size ≤ base + 65536)) :
    is_addressable base start size = false ∧
    can_new base start size =
      (.memoryNotAddressable, [NewEvent.enterConfigurationMode]) := by
  have haddr : is_addressable base start size = false := by
    unfold is_addressable
    rw [show (1 : Nat) <<< 16 = 65536 from rfl]
    by_cases h1 : base ≤ start
    · have h2 : ¬(start + size - base ≤ 65536) := by omega
      simp [h1, h2]
    · simp [h1]
  refine ⟨haddr, ?_⟩
  unfold can_new
  rw [haddr]
  simp

/-- Witness for `is_addressable_outside_window`: a region placed below the
eligible base. -/
theorem is_addressable_outside_window_witness :
    is_addressable 0x20000000 0x10000000 64 = false ∧
    can_new 0x20000000 0x10000000 64 =
      (.memoryNotAddressable, [NewEvent.enterConfigurationMode]) :=
  is_addressable_outside_window 0x20000000 0x10000000 64 (by decide)

end Bus

namespace Config

/-! ## Configuration application (C1) -/

/-- C1 (counterexample): an FD configuration with a valid timestamp
prescaler and valid nominal timing but invalid data-phase timing
(`sjw = 0`) makes `apply_configuration` return a bit-timing error *after*
NBTP and CCCR have already been written — the registers are not all left
unchanged on a validation failure (DBTP and the rest are). -/
theorem apply_configuration_fd_error_after_writes :
    (apply_configuration
        ⟨.fd false ⟨0, 1, 1, 1000000⟩, false, ⟨4, 11, 4, 1000000⟩, ⟨0, 1⟩,
          ⟨false, 0⟩, ⟨false, 0⟩, ⟨0, false⟩⟩ 16000000
        ⟨⟨0, 0, 0, 0⟩, ⟨0, 0⟩, ⟨false, false, false⟩, ⟨0, 0, 0, 0⟩,
          ⟨false, false⟩, ⟨false⟩, ⟨0, 0, false, 0⟩, ⟨0, 0, false, 0⟩,
          ⟨0, 0, 0, false⟩, ⟨0, 0, 0⟩⟩).1 =
      .error (.bitTiming .synchronizationJumpWidthOutOfRange) ∧
    (apply_configuration
        ⟨.fd false ⟨0, 1, 1, 1000000⟩, false, ⟨4, 11, 4, 1000000⟩, ⟨0, 1⟩,
          ⟨false, 0⟩, ⟨false, 0⟩, ⟨0, false⟩⟩ 16000000
        ⟨⟨0, 0, 0, 0⟩, ⟨0, 0⟩, ⟨false, false, false⟩, ⟨0, 0, 0, 0⟩,
          ⟨false, false⟩, ⟨false⟩, ⟨0, 0, false, 0⟩, ⟨0, 0, false, 0⟩,
          ⟨0, 0, 0, false⟩, ⟨0, 0, 0⟩⟩).2.nbtp = ⟨3, 10, 3, 0⟩ ∧
    (⟨3, 10, 3, 0⟩ : RegNbtp) ≠ ⟨0, 0, 0, 0⟩ ∧
    (apply_configuration
        ⟨.fd false ⟨0, 1, 1, 1000000⟩, false, ⟨4, 11, 4, 1000000⟩, ⟨0, 1⟩,
          ⟨false, 0⟩, ⟨false, 0⟩, ⟨0, false⟩⟩ 16000000
        ⟨⟨0, 0, 0, 0⟩, ⟨0, 0⟩, ⟨false, false, false⟩, ⟨0, 0, 0, 0⟩,
          ⟨false, false⟩, ⟨false⟩, ⟨0, 0, false, 0⟩, ⟨0, 0, false, 0⟩,
          ⟨0, 0, 0, false⟩, ⟨0, 0, 0⟩⟩).2.cccr = ⟨true, false, false⟩ ∧
    (⟨true, false, false⟩ : RegCccr) ≠ ⟨false, false, false⟩ := by
  decide

/-- C1 (amended): a timestamp-prescaler failure or a nominal-bit-timing
failure aborts `apply_configuration` with the corresponding error before
any register write, leaving the whole register state unchanged; a
data-phase bit-timing failure in FD mode aborts with the corresponding
error after NBTP, TSCC and CCCR (FDOE/BRSE) have been written but before
DBTP, GFC, TEST, the RX FIFO configurations, TXBC and TXEFC are touched;
and `finalize` propagates any such error without entering operational
mode. -/
theorem apply_configuration_error_effects (cfg : CanConfig) (f_can : Nat)
    (st : RegState) :
    (¬(1 ≤ cfg.timestamp.prescaler ∧ cfg.timestamp.prescaler ≤ 16) →
      apply_configuration cfg f_can st =
        (.error .invalidTimeStampPrescaler, st)) ∧
    (∀ e, (1 ≤ cfg.timestamp.prescaler ∧ cfg.timestamp.prescaler ≤ 16) →
      bt_prescaler cfg.nominal_timing f_can NOMINAL_BIT_TIMING_RANGES =
        .error e →
      apply_configuration cfg f_can st = (.error (.bitTiming e), st)) ∧
    (∀ brs dt e np, cfg.mode = .fd brs dt →
      (1 ≤ cfg.timestamp.prescaler ∧ cfg.timestamp.prescaler ≤ 16) →
      bt_prescaler cfg.nominal_timing f_can NOMINAL_BIT_TIMING_RANGES =
        .ok np →
      bt_prescaler dt f_can DATA_BIT_TIMING_RANGES = .error e →
      (apply_configuration cfg f_can st).1 = .error (.bitTiming e) ∧
      (apply_configuration cfg f_can st).2.nbtp =
        ⟨cfg.nominal_timing.sjw - 1, cfg.nominal_timing.phase_seg_1 - 1,
          cfg.nominal_timing.phase_seg_2 - 1, np - 1⟩ ∧
      (apply_configuration cfg f_can st).2.tscc =
        ⟨cfg.timestamp.select, cfg.timestamp.prescaler - 1⟩ ∧
      (apply_configuration cfg f_can st).2.cccr =
        ⟨true, brs, st.cccr.test_enable⟩ ∧
      (apply_configuration cfg f_can st).2.dbtp = st.dbtp ∧
      (apply_configuration cfg f_can st).2.gfc = st.gfc ∧
      (apply_configuration cfg f_can st).2.test = st.test ∧
      (apply_configuration cfg f_can st).2.rxf0c = st.rxf0c ∧
      (apply_configuration cfg f_can st).2.rxf1c = st.rxf1c ∧
      (apply_configuration cfg f_can st).2.txbc = st.txbc ∧
      (apply_configuration cfg f_can st).2.txefc = st.txefc) ∧
    (∀ e st2, apply_configuration cfg f_can st = (.error e, st2) →
      finalize cfg f_can st = (.error e, st2, false)) := by
  refine ⟨?_, ?_, ?_, ?_⟩
  · intro h
    unfold apply_configuration
    rw [if_pos h]
  · intro e hts hbt
    unfold apply_configuration
    rw [if_neg (not_not_intro hts)]
    simp only [hbt]
  · intro brs dt e np hmode hts hnom hdata
    unfold apply_configuration
    rw [if_neg (not_not_intro hts)]
    simp only [hnom, hmode, hdata]
    simp
  · intro e st2 h
    unfold finalize
    rw [h]

/-- Witness for `apply_configuration_error_effects`: a zero timestamp
prescaler fails with state unchanged; the FD data-phase failure leaves
DBTP untouched while reporting the data-phase error. -/
theorem apply_configuration_error_effects_witness :
    apply_configuration
        ⟨.classic, false, ⟨4, 11, 4, 1000000⟩, ⟨0, 0⟩, ⟨false, 0⟩,
          ⟨false, 0⟩, ⟨0, false⟩⟩ 16000000
        ⟨⟨0, 0, 0, 0⟩, ⟨0, 0⟩, ⟨false, false, false⟩, ⟨0, 0, 0, 0⟩,
          ⟨false, false⟩, ⟨false⟩, ⟨0, 0, false, 0⟩, ⟨0, 0, false, 0⟩,
          ⟨0, 0, 0, false⟩, ⟨0, 0, 0⟩⟩ =
      (.error .invalidTimeStampPrescaler,
        ⟨⟨0, 0, 0, 0⟩, ⟨0, 0⟩, ⟨false, false, false⟩, ⟨0, 0, 0, 0⟩,
          ⟨false, false⟩, ⟨false⟩, ⟨0, 0, false, 0⟩, ⟨0, 0, false, 0⟩,
          ⟨0, 0, 0, false⟩, ⟨0, 0, 0⟩⟩) ∧
    (apply_configuration
        ⟨.fd false ⟨0, 1, 1, 1000000⟩, false, ⟨4, 11, 4, 1000000⟩, ⟨0, 1⟩,
          ⟨false, 0⟩, ⟨false, 0⟩, ⟨0, false⟩⟩ 16000000
        ⟨⟨0, 0, 0, 0⟩, ⟨0, 0⟩, ⟨false, false, false⟩, ⟨0, 0, 0, 0⟩,
          ⟨false, false⟩, ⟨false⟩, ⟨0, 0, false, 0⟩, ⟨0, 0, false, 0⟩,
          ⟨0, 0, 0, false⟩, ⟨0, 0, 0⟩⟩).1 =
      .error (.bitTiming .synchronizationJumpWidthOutOfRange) ∧
    (apply_configuration
        ⟨.fd false ⟨0, 1, 1, 1000000⟩, false, ⟨4, 11, 4, 1000000⟩, ⟨0, 1⟩,
          ⟨false, 0⟩, ⟨false, 0⟩, ⟨0, false⟩⟩ 16000000
        ⟨⟨0, 0, 0, 0⟩, ⟨0, 0⟩, ⟨false, false, false⟩, ⟨0, 0, 0, 0⟩,
          ⟨false, false⟩, ⟨false⟩, ⟨0, 0, false, 0⟩, ⟨0, 0, false, 0⟩,
          ⟨0, 0, 0, false⟩, ⟨0, 0, 0⟩⟩).2.dbtp = ⟨0, 0, 0, 0⟩ := by
  refine ⟨(apply_configuration_error_effects _ _ _).1 (by decide), ?_, ?_⟩
  · exact ((apply_configuration_error_effects
      ⟨.fd false ⟨0, 1, 1, 1000000⟩, false, ⟨4, 11, 4, 1000000⟩, ⟨0, 1⟩,
        ⟨false, 0⟩, ⟨false, 0⟩, ⟨0, false⟩⟩ 16000000
      ⟨⟨0, 0, 0, 0⟩, ⟨0, 0⟩, ⟨false, false, false⟩, ⟨0, 0, 0, 0⟩,
        ⟨false, false⟩, ⟨false⟩, ⟨0, 0, false, 0⟩, ⟨0, 0, false, 0⟩,
        ⟨0, 0, 0, false⟩, ⟨0, 0, 0⟩⟩).2.2.1 false ⟨0, 1, 1, 1000000⟩
      .synchronizationJumpWidthOutOfRange 1 rfl (by decide) (by decide)
      (by decide)).1
  · exact ((apply_configuration_error_effects
      ⟨.fd false ⟨0, 1, 1, 1000000⟩, false, ⟨4, 11, 4, 1000000⟩, ⟨0, 1⟩,
        ⟨false, 0⟩, ⟨false, 0⟩, ⟨0, false⟩⟩ 16000000
      ⟨⟨0, 0, 0, 0⟩, ⟨0, 0⟩, ⟨false, false, false⟩, ⟨0, 0, 0, 0⟩,
        ⟨false, false⟩, ⟨false⟩, ⟨0, 0, false, 0⟩, ⟨0, 0, false, 0⟩,
        ⟨0, 0, 0, false⟩, ⟨0, 0, 0⟩⟩).2.2.1 false ⟨0, 1, 1, 1000000⟩
      .synchronizationJumpWidthOutOfRange 1 rfl (by decide) (by decide)
      (by decide)).2.2.2.2.1

end Config

end Mcan
